import Mathlib

/-! # Conversation store of the chat client

A shallow embedding of the conversation logic of `static/js/script.js` (class `ChatApp`)
and `static/js/history.js` (class `HistoryManager`).

Conventions of the embedding.

* A JavaScript object used as a dictionary is an association list in insertion order
  (`JsObject`); `Object.values` enumerates array-index keys first, in ascending numeric order,
  then the other keys in insertion order, as `OrdinaryOwnPropertyKeys` prescribes.
* A JavaScript value that may be `undefined` or `null` is an `Option`.
* A time value (the number behind a `Date`) is an `Int` of milliseconds since the epoch;
  an Invalid Date (`NaN`) is `none`.  `Date.parse` is a parameter `parseDate`.
* The environment (clock, random numbers, outcome of `fetch`, content of `localStorage`) is
  passed explicitly.
* A string is a list of Unicode characters; `length` and `substring` count UTF-16 code units.
* Only the own properties of a dictionary are modelled: a read at a key inherited from
  `Object.prototype` (such as `constructor`) is taken to give `undefined`.  The keys of the store
  are produced by `generateId` or come from the server, and no statement below reads such a key.
* The time zone of the host is a parameter (`JsDate.TimeZone`) with a separate offset for
  instants and for local times, so that daylight-saving transitions are covered.
* A call that the source does not await (`saveConversations` in `sendMessage`) is split into the
  part that runs before the caller returns and the part that runs later, in a later state.
* DOM updates are not modelled.
-/

namespace Yolsda

/-! ## JavaScript objects as dictionaries -/

/-- A dictionary object: the own string-keyed properties in insertion order. -/
abbrev JsObject (α : Type) := List (String × α)

namespace JsObject

/-- Property read `o[k]` among the own properties; `none` is `undefined`. -/
def get {α : Type} (o : JsObject α) (k : String) : Option α :=
  match o with
  | [] => none
  | (k', v) :: rest => if k' = k then some v else get rest k

/-- Property write `o[k] = v`: an existing property keeps its position, a new one is added last. -/
def set {α : Type} (o : JsObject α) (k : String) (v : α) : JsObject α :=
  match o with
  | [] => [(k, v)]
  | (k', v') :: rest => if k' = k then (k', v) :: rest else (k', v') :: set rest k v

/-- The property keys, in insertion order. -/
def keys {α : Type} (o : JsObject α) : List String := o.map Prod.fst

/-- The number that a string of decimal digits denotes. -/
def digitsValue (cs : List Char) : Nat :=
  cs.foldl (fun n c => 10 * n + (c.toNat - 48)) 0

/-- A key is an array index when it is the canonical decimal string (digits only, no leading
zero except for `0` itself) of an integer in `0 .. 2^32 - 2`. -/
def isArrayIndex (k : String) : Bool :=
  match k.data with
  | [] => false
  | c :: cs =>
    (c :: cs).all Char.isDigit && (c != '0' || cs.isEmpty) &&
      decide (digitsValue (c :: cs) < 2 ^ 32 - 1)

/-- The numeric value of an array-index key. -/
def indexOf (k : String) : Nat := digitsValue k.data

/-- The entries in enumeration order: array indices ascending, then the rest as inserted. -/
def ownEntries {α : Type} (o : JsObject α) : JsObject α :=
  List.insertionSort (fun p q => indexOf p.1 ≤ indexOf q.1) (o.filter (fun p => isArrayIndex p.1))
    ++ o.filter (fun p => !isArrayIndex p.1)

/-- The list `Object.values(o)`. -/
def values {α : Type} (o : JsObject α) : List α := (ownEntries o).map Prod.snd

end JsObject

/-- JavaScript truthiness of a value that is a string, `undefined` or `null`. -/
def truthy (s : Option String) : Bool :=
  match s with
  | some v => decide (v ≠ "")
  | none => false

/-- The operator `a || b` on values that are strings, `undefined` or `null`; a falsy left operand
yields the right operand. -/
def jsOr (a b : Option String) : Option String := if truthy a then a else b

/-- The property key that a value which is a string or `null` denotes (`ToPropertyKey`). -/
def propertyKey (v : Option String) : String :=
  match v with
  | some s => s
  | none => "null"

/-! ## Array.prototype.sort -/

/-- The abstract operation `SortCompare` for a comparator whose result is a number:
`NaN` (here `none`) counts as `+0`. -/
def sortCompare {α : Type} (comparefn : α → α → Option Int) (x y : α) : Int :=
  (comparefn x y).getD 0

/-- The method `Array.prototype.sort(comparefn)` as a stable insertion sort: `x` stays before `y`
unless the comparator is positive.  For a comparator that is not consistent ECMAScript leaves the
order to the implementation; this is one admissible choice. -/
def arraySort {α : Type} (comparefn : α → α → Option Int) (l : List α) : List α :=
  List.insertionSort (fun x y => sortCompare comparefn x y ≤ 0) l

/-! ## Data model of `ChatApp` (script.js) -/

/-- A chat message as stored in a conversation. -/
structure Message where
  content : String
  sender : String
  timestamp : String
deriving DecidableEq, Repr

/-- A conversation record held in `ChatApp.conversations`. -/
structure Conversation where
  id : String
  title : Option String
  messages : List Message
  snippet : Option String
  timestamp : String
deriving DecidableEq, Repr

/-- A record of the array answered by `GET /api/conversations`. -/
structure RemoteConversation where
  id : String
  title : Option String
  messages : Option (List Message)
  snippet : Option String
  updated_at : Option String
  created_at : Option String
deriving DecidableEq, Repr

/-- The parsed content of the `chatConversations` entry of `localStorage`. -/
structure Snapshot where
  conversations : List Conversation
  currentId : Option String
deriving DecidableEq, Repr

/-- The fields of a `ChatApp` instance that carry conversation state. -/
structure ChatApp where
  conversations : JsObject Conversation
  currentConversationId : Option String
  isFirstMessage : Bool
deriving DecidableEq, Repr

/-- The state set up by the constructor (script.js lines 9-11). -/
def ChatApp.initial : ChatApp :=
  { conversations := [], currentConversationId := none, isFirstMessage := true }

/-- The outcome of `fetch`: the promise rejects (transport error) or resolves to a response. -/
inductive FetchResult (β : Type) where
  | rejected : FetchResult β
  | response (ok : Bool) (body : β) : FetchResult β
deriving DecidableEq, Repr

/-- The body of the answer to `GET /api/conversations` as `response.json()` delivers it. -/
inductive ConversationsBody where
  /-- A bare array of records. -/
  | array (records : List RemoteConversation) : ConversationsBody
  /-- An object, whose `conversations` property may be missing. -/
  | object (conversations : Option (List RemoteConversation)) : ConversationsBody
  /-- The body cannot be read: `response.json()` rejects. -/
  | unreadable : ConversationsBody
deriving DecidableEq, Repr

/-! ## Operations of `ChatApp` -/

/-- The comparator of script.js line 248: `new Date(b.timestamp) - new Date(a.timestamp)`. -/
def compareByTimestamp (parseDate : String → Option Int) (a b : Conversation) : Option Int :=
  match parseDate b.timestamp, parseDate a.timestamp with
  | some tb, some ta => some (tb - ta)
  | _, _ => none

/-- The list `conversations` computed by `renderConversationsList` (script.js lines 246-248). -/
def renderConversationsList (parseDate : String → Option Int) (app : ChatApp) :
    List Conversation :=
  arraySort (compareByTimestamp parseDate)
    ((JsObject.values app.conversations).filter (fun c => decide (c.messages.length > 0)))

/-- The method `generateId` (script.js lines 56-58); `now` is `Date.now()` and `rand` is
`Math.random().toString(36).substr(2, 9)`. -/
def generateId (now : Nat) (rand : String) : String :=
  "conv_" ++ toString now ++ "_" ++ rand

/-- The state change of `startNewConversation` (script.js lines 60-70); `nowIso` is
`new Date().toISOString()`. -/
def startNewConversation (app : ChatApp) (now : Nat) (rand : String) (nowIso : String) :
    ChatApp :=
  let id := generateId now rand
  { conversations := JsObject.set app.conversations id
      { id := id, title := some "Nouvelle conversation", messages := [], snippet := none,
        timestamp := nowIso }
    currentConversationId := some id
    isFirstMessage := true }

/-- The statement `this.conversations[this.currentConversationId].messages.push(msg)`
(script.js lines 97-101, 134-138, 319-323); `none` when the lookup finds no record
(a `TypeError` in the source). -/
def pushMessage (app : ChatApp) (msg : Message) : Option ChatApp :=
  let key := propertyKey app.currentConversationId
  match JsObject.get app.conversations key with
  | none => none
  | some conv =>
    some { app with
      conversations :=
        JsObject.set app.conversations key { conv with messages := conv.messages ++ [msg] } }

/-- The state change of `loadConversation` (script.js lines 283-288). -/
def loadConversation (app : ChatApp) (convId : String) : ChatApp :=
  match JsObject.get app.conversations convId with
  | none => app
  | some _ => { app with currentConversationId := some convId, isFirstMessage := false }

/-- The method `loadConversationsFromLocalStorage` (script.js lines 213-223); `saved` is the parsed
`chatConversations` entry, `none` when `localStorage.getItem` gives `null`. -/
def loadConversationsFromLocalStorage (app : ChatApp) (saved : Option Snapshot) : ChatApp :=
  match saved with
  | none => app
  | some data =>
    let app1 : ChatApp :=
      { app with
        conversations :=
          data.conversations.foldl (fun o conv => JsObject.set o conv.id conv) app.conversations
        currentConversationId := data.currentId }
    match app1.currentConversationId with
    | some id => if truthy (some id) then loadConversation app1 id else app1
    | none => app1

/-- The record stored for a remote record (script.js lines 192-198). -/
def normalize (nowIso : String) (conv : RemoteConversation) : Conversation :=
  { id := conv.id
    title := conv.title
    messages := conv.messages.getD []
    snippet := jsOr conv.snippet none
    timestamp := (jsOr (jsOr conv.updated_at conv.created_at) (some nowIso)).getD nowIso }

/-- The success branch of `loadConversations` for the array of records (script.js lines 191-203). -/
def storeRemote (app : ChatApp) (nowIso : String) (conversationsArray : List RemoteConversation) :
    ChatApp :=
  let app1 : ChatApp :=
    { app with
      conversations :=
        conversationsArray.foldl (fun o conv => JsObject.set o conv.id (normalize nowIso conv))
          app.conversations }
  match conversationsArray with
  | [] => app1
  | first :: _ => loadConversation { app1 with currentConversationId := some first.id } first.id

/-- The state change of `loadConversations` (script.js lines 182-208). -/
def loadConversations (app : ChatApp) (result : FetchResult ConversationsBody) (nowIso : String)
    (saved : Option Snapshot) : ChatApp :=
  match result with
  | FetchResult.rejected => loadConversationsFromLocalStorage app saved
  | FetchResult.response ok body =>
    if ok then
      match body with
      | ConversationsBody.array records => storeRemote app nowIso records
      | ConversationsBody.object conversations => storeRemote app nowIso (conversations.getD [])
      | ConversationsBody.unreadable => loadConversationsFromLocalStorage app saved
    else app

/-- The array `conversationsData` of `saveConversations` (script.js line 226). -/
def conversationsData (app : ChatApp) : List Conversation :=
  (JsObject.values app.conversations).filter (fun c => decide (c.messages.length > 0))

/-- The loop of script.js lines 228-234: `true` when every `PUT` resolves, `false` as soon as one
rejects (the remaining requests are not issued). -/
def putAll (rejects : Conversation → Bool) : List Conversation → Bool
  | [] => true
  | conv :: rest => if rejects conv then false else putAll rejects rest

/-- The content of the `chatConversations` entry after `saveConversations` (script.js lines
225-242); `rejects conv` tells whether the `PUT` for `conv` rejects, `storage` is the entry before
the call. -/
def saveConversations (app : ChatApp) (rejects : Conversation → Bool)
    (storage : Option Snapshot) : Option Snapshot :=
  if putAll rejects (conversationsData app) then storage
  else some { conversations := conversationsData app, currentId := app.currentConversationId }

/-! ## Dates (ECMAScript time values)

The functions below follow the definitions of the ECMAScript specification (section "Time Values
and Time Range" and the `Date` prototype).  The time zone of the host is a parameter: it gives the
offset in force at an instant and the offset with which a local time is read, so that
daylight-saving transitions are covered.  A clock reading (`Date.now()`, `new Date()`) is a
natural number of milliseconds since the epoch. -/

namespace JsDate

/-- The number of milliseconds of a day. -/
def msPerDay : Int := 86400000

/-- The time zone of the host, in milliseconds.  `offsetAt t` is the offset from UTC in force at
the instant `t` (`LocalTZA(t, true)`); `localOffset x` is the offset with which the local time
`x` is read (`LocalTZA(x, false)`: the offset before the transition for a local time that a
transition skips or repeats).  Offsets are of magnitude below one day, and the offset of a local
time exceeds that of the same local time one day earlier by at most one day. -/
structure TimeZone where
  offsetAt : Int → Int
  localOffset : Int → Int
  bounded : ∀ t, -86400000 < offsetAt t ∧ offsetAt t < 86400000
  step : ∀ x, localOffset x ≤ localOffset (x - 86400000) + 86400000

/-- The abstract operation `Day(t)`: the day number of a time value. -/
def day (t : Int) : Int := t / msPerDay

/-- The abstract operation `TimeWithinDay(t)`. -/
def timeWithinDay (t : Int) : Int := t % msPerDay

/-- The abstract operation `DayFromYear(y)`: the day number of the first day of year `y`. -/
def dayFromYear (y : Int) : Int :=
  365 * (y - 1970) + (y - 1969) / 4 - (y - 1901) / 100 + (y - 1601) / 400

/-- One when year `y` is a leap year, else zero (the abstract operation `InLeapYear` on years). -/
def inLeapYear (y : Int) : Int :=
  if y % 4 ≠ 0 then 0 else if y % 100 ≠ 0 then 1 else if y % 400 ≠ 0 then 0 else 1

/-- The year of a day number: the largest `y` with `dayFromYear y ≤ z`, found from the estimate
`1970 + ⌊400 z / 146097⌋`, which is off by at most one. -/
def yearFromDay (z : Int) : Int :=
  let y0 := 1970 + (400 * z) / 146097
  if dayFromYear (y0 + 1) ≤ z then y0 + 1
  else if dayFromYear y0 ≤ z then y0
  else y0 - 1

/-- The abstract operation `YearFromTime(t)`. -/
def yearFromTime (t : Int) : Int := yearFromDay (day t)

/-- The abstract operation `DayWithinYear(t)`. -/
def dayWithinYear (t : Int) : Int := day t - dayFromYear (yearFromTime t)

/-- The day within the year on which month `m` (0 to 11) starts; `leap` is one in a leap year. -/
def monthStart (leap m : Int) : Int :=
  if m = 0 then 0 else if m = 1 then 31 else if m = 2 then 59 + leap
  else if m = 3 then 90 + leap else if m = 4 then 120 + leap else if m = 5 then 151 + leap
  else if m = 6 then 181 + leap else if m = 7 then 212 + leap else if m = 8 then 243 + leap
  else if m = 9 then 273 + leap else if m = 10 then 304 + leap else 334 + leap

/-- The month (0 for January to 11 for December) of day `d` within a year; `leap` is one in a
leap year.  This is the table of `MonthFromTime`. -/
def monthFromDayWithinYear (leap d : Int) : Int :=
  if d < 31 then 0 else if d < 59 + leap then 1 else if d < 90 + leap then 2
  else if d < 120 + leap then 3 else if d < 151 + leap then 4 else if d < 181 + leap then 5
  else if d < 212 + leap then 6 else if d < 243 + leap then 7 else if d < 273 + leap then 8
  else if d < 304 + leap then 9 else if d < 334 + leap then 10 else 11

/-- The abstract operation `MonthFromTime(t)`: 0 for January to 11 for December. -/
def monthFromTime (t : Int) : Int :=
  monthFromDayWithinYear (inLeapYear (yearFromTime t)) (dayWithinYear t)

/-- The abstract operation `DateFromTime(t)`: the day of the month, from 1. -/
def dateFromTime (t : Int) : Int :=
  dayWithinYear t - monthStart (inLeapYear (yearFromTime t)) (monthFromTime t) + 1

/-- The abstract operation `MakeDay(year, month, date)`; `month` and `date` may lie outside
their usual ranges and then carry over. -/
def makeDay (year month date : Int) : Int :=
  let ym := year + month / 12
  let mn := month % 12
  dayFromYear ym + monthStart (inLeapYear ym) mn + date - 1

/-- The abstract operation `MakeDate(day, time)`. -/
def makeDate (d time : Int) : Int := d * msPerDay + time

/-- The abstract operation `LocalTime(t)`. -/
def localTime (tz : TimeZone) (t : Int) : Int := t + tz.offsetAt t

/-- The abstract operation `UTC(t)`. -/
def utc (tz : TimeZone) (t : Int) : Int := t - tz.localOffset t

/-- The abstract operation `MakeFullYear(year)`: years 0 to 99 mean 1900 to 1999. -/
def makeFullYear (y : Int) : Int := if 0 ≤ y ∧ y ≤ 99 then 1900 + y else y

/-- The method `getFullYear()`. -/
def getFullYear (tz : TimeZone) (t : Int) : Int := yearFromTime (localTime tz t)

/-- The method `getMonth()`. -/
def getMonth (tz : TimeZone) (t : Int) : Int := monthFromTime (localTime tz t)

/-- The method `getDate()`. -/
def getDate (tz : TimeZone) (t : Int) : Int := dateFromTime (localTime tz t)

/-- The constructor `new Date(year, month, date)`: local midnight of that day. -/
def ofYearMonthDate (tz : TimeZone) (year month date : Int) : Int :=
  utc tz (makeDate (makeDay (makeFullYear year) month date) 0)

/-- The method `setDate(date)`, giving the new time value. -/
def setDate (tz : TimeZone) (t date : Int) : Int :=
  let lt := localTime tz t
  utc tz (makeDate (makeDay (yearFromTime lt) (monthFromTime lt) date) (timeWithinDay lt))

/-- The method `setMonth(month)`, giving the new time value. -/
def setMonth (tz : TimeZone) (t month : Int) : Int :=
  let lt := localTime tz t
  utc tz (makeDate (makeDay (yearFromTime lt) month (dateFromTime lt)) (timeWithinDay lt))

/-- The constructor `new Date(value)` for a value that is a string or `undefined`. -/
def ofValue (parseDate : String → Option Int) (v : Option String) : Option Int :=
  match v with
  | some s => parseDate s
  | none => none

/-- The comparison `a >= b` of a date with a valid date; false when `a` is an Invalid Date. -/
def ge (a : Option Int) (b : Int) : Bool :=
  match a with
  | some t => decide (b ≤ t)
  | none => false

end JsDate

/-! ## Data model and operations of `HistoryManager` (history.js) -/

/-- A record of `HistoryManager.conversations`, as answered by `GET /api/conversations`. -/
structure HistoryConversation where
  id : String
  title : Option String
  first_message : Option String
  updated_at : Option String
deriving DecidableEq, Repr

/-- The statement `groups[label].push(conv)`. -/
def pushToGroup (groups : JsObject (List HistoryConversation)) (label : String)
    (conv : HistoryConversation) : JsObject (List HistoryConversation) :=
  match JsObject.get groups label with
  | some convs => JsObject.set groups label (convs ++ [conv])
  | none => groups

/-- The statement `delete o[k]`. -/
def JsObject.delete {α : Type} (o : JsObject α) (k : String) : JsObject α :=
  o.filter (fun p => decide (p.1 ≠ k))

/-- The cutoffs `today`, `yesterday`, `lastWeek`, `lastMonth` of `groupByDate`
(history.js lines 78-85), in this order. -/
def cutoffs (tz : JsDate.TimeZone) (now : Nat) : Int × Int × Int × Int :=
  let today := JsDate.ofYearMonthDate tz (JsDate.getFullYear tz now) (JsDate.getMonth tz now)
    (JsDate.getDate tz now)
  let yesterday := JsDate.setDate tz today (JsDate.getDate tz today - 1)
  let lastWeek := JsDate.setDate tz today (JsDate.getDate tz today - 7)
  let lastMonth := JsDate.setMonth tz today (JsDate.getMonth tz today - 1)
  (today, yesterday, lastWeek, lastMonth)

/-- The label of the group that receives a conversation (history.js lines 96-108). -/
def groupLabel (parseDate : String → Option Int) (tz : JsDate.TimeZone) (now : Nat)
    (conv : HistoryConversation) : String :=
  let date := JsDate.ofValue parseDate conv.updated_at
  if JsDate.ge date (cutoffs tz now).1 then "Aujourd'hui"
  else if JsDate.ge date (cutoffs tz now).2.1 then "Hier"
  else if JsDate.ge date (cutoffs tz now).2.2.1 then "7 derniers jours"
  else if JsDate.ge date (cutoffs tz now).2.2.2 then "30 derniers jours"
  else "Plus ancien"

/-- The object `groups` as created at history.js lines 87-93. -/
def emptyGroups : JsObject (List HistoryConversation) :=
  [("Aujourd'hui", []), ("Hier", []), ("7 derniers jours", []), ("30 derniers jours", []),
    ("Plus ancien", [])]

/-- The method `groupByDate` (history.js lines 77-119); `now` is the clock reading of
`new Date()`. -/
def groupByDate (parseDate : String → Option Int) (tz : JsDate.TimeZone) (now : Nat)
    (conversations : List HistoryConversation) : JsObject (List HistoryConversation) :=
  let groups := conversations.foldl
    (fun g conv => pushToGroup g (groupLabel parseDate tz now conv) conv) emptyGroups
  (JsObject.keys groups).foldl
    (fun g key =>
      match JsObject.get g key with
      | some convs => if convs.length = 0 then JsObject.delete g key else g
      | none => g)
    groups

/-! ## Notions used in the statements on `groupByDate` -/

/-- The conversations of the group `label` in the object that `groupByDate` returns; empty when
the group was deleted. -/
def bucket (groups : JsObject (List HistoryConversation)) (label : String) :
    List HistoryConversation :=
  (JsObject.get groups label).getD []

/-- The object in which the five groups hold the given arrays. -/
def groupsOf (b₀ b₁ b₂ b₃ b₄ : List HistoryConversation) : JsObject (List HistoryConversation) :=
  [("Aujourd'hui", b₀), ("Hier", b₁), ("7 derniers jours", b₂), ("30 derniers jours", b₃),
    ("Plus ancien", b₄)]

/-- The instant of the local midnight that starts the calendar day `k` days before the local day
of `t` (the day of `t` itself for `k = 0`), in the time zone of the host. -/
def startOfLocalDay (tz : JsDate.TimeZone) (t : Int) (k : Int) : Int :=
  JsDate.utc tz ((JsDate.day (JsDate.localTime tz t) - k) * JsDate.msPerDay)

/-- The local midnight that starts the local day of `t` is a time of the host's clock: no
transition of the time zone skips it, so that the instant of that midnight reads back as
midnight. -/
def midnightExists (tz : JsDate.TimeZone) (t : Int) : Prop :=
  JsDate.localTime tz (startOfLocalDay tz t 0) =
    JsDate.day (JsDate.localTime tz t) * JsDate.msPerDay

/-- The number of days of month `m` (0 for January to 11 for December); `leap` is one in a leap
year. -/
def daysInMonth (leap m : Int) : Int :=
  if m = 1 then 28 + leap
  else if m = 3 ∨ m = 5 ∨ m = 8 ∨ m = 10 then 30
  else 31

/-- The number of days of the calendar month that precedes the local month of `t`; the leap
flag of the year of `t` is the right one for February, which precedes March of the same year. -/
def previousMonthLength (tz : JsDate.TimeZone) (t : Int) : Int :=
  daysInMonth (JsDate.inLeapYear (JsDate.getFullYear tz t)) ((JsDate.getMonth tz t + 11) % 12)

/-! ## Sample data -/

/-- A user message. -/
def sampleMessage : Message :=
  { content := "hi", sender := "user", timestamp := "2024-01-02T00:00:00.000Z" }

/-- The values of `Date.parse` on the timestamps of the sample data. -/
def sampleParseDate (s : String) : Option Int :=
  if s = "2024-01-01T00:00:00.000Z" then some 1704067200000
  else if s = "2024-01-02T00:00:00.000Z" then some 1704153600000
  else if s = "2024-02-14T12:00:00.000Z" then some 1707912000000
  else if s = "2024-03-15T09:30:00.000Z" then some 1710495000000
  else if s = "2024-03-30T22:30:00.000Z" then some 1711837800000
  else if s = "2024-02-29T22:30:00.000Z" then some 1709245800000
  else if s = "2018-11-03T03:30:00.000Z" then some 1541215800000
  else none

/-- A conversation holding one message. -/
def sampleStarted : Conversation :=
  { id := "a", title := some "Bonjour", messages := [sampleMessage], snippet := none,
    timestamp := "2024-01-01T00:00:00.000Z" }

/-- A conversation just created by `startNewConversation`, without a message. -/
def sampleEmpty : Conversation :=
  { id := "conv_1704153600000_k3x9q2m1z", title := some "Nouvelle conversation", messages := [],
    snippet := none, timestamp := "2024-01-02T00:00:00.000Z" }

/-- A store with one started conversation and a freshly created current one. -/
def sampleApp : ChatApp :=
  { conversations := [("a", sampleStarted), ("conv_1704153600000_k3x9q2m1z", sampleEmpty)]
    currentConversationId := some "conv_1704153600000_k3x9q2m1z"
    isFirstMessage := true }

/-- A second conversation holding one message, updated a day after the first. -/
def sampleLater : Conversation :=
  { id := "b", title := some "Salut", messages := [sampleMessage], snippet := none,
    timestamp := "2024-01-02T00:00:00.000Z" }

/-- A store with two started conversations, the earlier one stored first. -/
def sampleTwoApp : ChatApp :=
  { conversations := [("a", sampleStarted), ("b", sampleLater)]
    currentConversationId := some "a"
    isFirstMessage := false }

/-- A snapshot as `saveConversations` writes it. -/
def sampleSnapshot : Snapshot :=
  { conversations := [sampleStarted], currentId := some "a" }

/-- A remote record whose `updated_at` is the empty string. -/
def sampleRemoteEmptyUpdate : RemoteConversation :=
  { id := "a", title := some "Bonjour", messages := some [sampleMessage], snippet := none,
    updated_at := some "", created_at := some "2024-01-01T00:00:00.000Z" }

/-- A remote record carrying both dates. -/
def sampleRemote : RemoteConversation :=
  { id := "a", title := some "Bonjour", messages := some [sampleMessage], snippet := none,
    updated_at := some "2024-01-02T00:00:00.000Z", created_at := some "2024-01-01T00:00:00.000Z" }

/-- The store after a first conversation was created and received a message. -/
def sampleAfterFirstMessage : ChatApp :=
  { conversations :=
      [("conv_1704153600000_k3x9q2m1z", { sampleEmpty with messages := [sampleMessage] })]
    currentConversationId := some "conv_1704153600000_k3x9q2m1z"
    isFirstMessage := true }

/-- A store holding the one started conversation. -/
def sampleSnapshotApp : ChatApp :=
  { conversations := [("a", sampleStarted)], currentConversationId := some "a",
    isFirstMessage := false }

/-- The time zone UTC. -/
def sampleUtc : JsDate.TimeZone :=
  { offsetAt := fun _ => 0
    localOffset := fun _ => 0
    bounded := fun _ => by simp
    step := fun _ => by simp }

/-- The time zone Europe/Paris as in force from 29 October 2023 to 27 October 2024: one hour ahead
of UTC until 31 March 2024 at 01:00 UTC, when the local clock goes from 02:00 to 03:00, and two
hours ahead from then on. -/
def sampleParis : JsDate.TimeZone :=
  { offsetAt := fun t => if t < 1711846800000 then 3600000 else 7200000
    localOffset := fun x => if x < 1711854000000 then 3600000 else 7200000
    bounded := fun t => by
      by_cases h : t < 1711846800000 <;> simp [h]
    step := fun x => by
      by_cases h₁ : x < 1711854000000 <;> by_cases h₂ : x - 86400000 < 1711854000000 <;>
        simp [h₁, h₂] }

/-- The time zone America/Sao_Paulo around 4 November 2018: three hours behind UTC until that day
at 03:00 UTC, when the local clock goes from 00:00 to 01:00, and two hours behind from then
on. -/
def sampleSaoPaulo : JsDate.TimeZone :=
  { offsetAt := fun t => if t < 1541300400000 then -10800000 else -7200000
    localOffset := fun x => if x < 1541293200000 then -10800000 else -7200000
    bounded := fun t => by
      by_cases h : t < 1541300400000 <;> simp [h]
    step := fun x => by
      by_cases h₁ : x < 1541293200000 <;> by_cases h₂ : x - 86400000 < 1541293200000 <;>
        simp [h₁, h₂] }

/-- The clock reading 2024-04-01T10:00:00.000Z, noon in Paris. -/
def sampleParisNow : Nat := 1711965600000

/-- A conversation last updated on 2024-03-30 at 22:30 UTC, 23:30 in Paris. -/
def sampleParisEve : HistoryConversation :=
  { id := "e", title := some "Avant-hier soir", first_message := none,
    updated_at := some "2024-03-30T22:30:00.000Z" }

/-- A conversation last updated on 2024-02-29 at 22:30 UTC, 23:30 in Paris. -/
def sampleParisFebruary : HistoryConversation :=
  { id := "f", title := some "Fin février", first_message := none,
    updated_at := some "2024-02-29T22:30:00.000Z" }

/-- The clock reading 2018-11-04T15:00:00.000Z, 13:00 in Sao Paulo. -/
def sampleSaoPauloNow : Nat := 1541343600000

/-- A conversation last updated on 2018-11-03 at 03:30 UTC, 00:30 in Sao Paulo. -/
def sampleSaoPauloNight : HistoryConversation :=
  { id := "n", title := some "Nuit", first_message := none,
    updated_at := some "2018-11-03T03:30:00.000Z" }

/-- The clock reading 2024-03-15T12:00:00.000Z. -/
def sampleNow : Nat := 1710504000000

/-- A conversation last updated on 2024-02-14 at noon UTC. -/
def sampleMonthOld : HistoryConversation :=
  { id := "m", title := some "Ancienne", first_message := none,
    updated_at := some "2024-02-14T12:00:00.000Z" }

/-- A conversation last updated on 2024-03-15 at 09:30 UTC. -/
def sampleRecent : HistoryConversation :=
  { id := "r", title := none, first_message := some "Bonjour",
    updated_at := some "2024-03-15T09:30:00.000Z" }

/-! ## Strings, requests and the remaining operations -/

/-- The characters that `String.prototype.trim` removes: the ECMAScript white space and line
terminator code points. -/
def isJsWhitespace (c : Char) : Bool :=
  c.toNat = 0x09 || c.toNat = 0x0A || c.toNat = 0x0B || c.toNat = 0x0C || c.toNat = 0x0D ||
    c.toNat = 0x20 || c.toNat = 0xA0 || c.toNat = 0x1680 ||
    (0x2000 ≤ c.toNat && c.toNat ≤ 0x200A) || c.toNat = 0x2028 || c.toNat = 0x2029 ||
    c.toNat = 0x202F || c.toNat = 0x205F || c.toNat = 0x3000 || c.toNat = 0xFEFF

/-- The method `String.prototype.trim`. -/
def jsTrim (s : String) : String :=
  String.mk ((s.data.dropWhile isJsWhitespace).reverse.dropWhile isJsWhitespace).reverse

/-- The property `length` of a string: its number of UTF-16 code units. -/
def jsLength (s : String) : Nat :=
  (s.data.map (fun c => if c.toNat < 0x10000 then 1 else 2)).sum

/-- The characters that fit in the first `n` UTF-16 code units. -/
def takeUnits : Nat → List Char → List Char
  | _, [] => []
  | n, c :: cs =>
    let w := if c.toNat < 0x10000 then 1 else 2
    if w ≤ n then c :: takeUnits (n - w) cs else []

/-- The method call `s.substring(0, n)`; a surrogate pair cut in two by the bound is left out. -/
def jsSubstringTo (s : String) (n : Nat) : String := String.mk (takeUnits n s.data)

/-- The method call `s.replace(/c/g, r)` for a pattern that is the single character `c`. -/
def replaceAll (s : String) (c : Char) (r : String) : String :=
  String.mk (s.data.flatMap (fun x => if x = c then r.data else [x]))

/-- The method `HistoryManager.escapeHtml` (history.js lines 377-385); `none` is `undefined` or
`null`. -/
def escapeHtml (arg : Option String) : String :=
  if truthy arg then
    replaceAll (replaceAll (replaceAll (replaceAll (replaceAll (arg.getD "") '&' "&amp;")
      '<' "&lt;") '>' "&gt;") (Char.ofNat 34) "&quot;") (Char.ofNat 39) "&#039;"
  else ""

/-- The method `HistoryManager.generateTitle` (history.js lines 149-165). -/
def generateTitle (conv : HistoryConversation) : String :=
  if truthy conv.title && decide (jsTrim (conv.title.getD "") ≠ "") then conv.title.getD ""
  else if truthy conv.first_message then
    let message := jsTrim (conv.first_message.getD "")
    if jsLength message > 40 then jsSubstringTo message 40 ++ "..." else message
  else "Nouvelle conversation"

/-- A request sent with `fetch`. -/
inductive Request where
  /-- `GET /api/conversations`. -/
  | getConversations : Request
  /-- `DELETE /api/conversations/{id}`. -/
  | deleteConversation (id : String) : Request
  /-- `PATCH /api/conversations/{id}` with body `{title}`. -/
  | patchTitle (id : String) (title : String) : Request
  /-- `PUT /api/conversations/{id}` with body `{title}`. -/
  | putTitle (id : String) (title : String) : Request
  /-- `PUT /api/conversations/{id}` with body `{title, messages}`. -/
  | putConversation (id : String) (title : Option String) (messages : List Message) : Request
  /-- `POST /chat` with body `{message, conversation_id}`. -/
  | postChat (message : String) (conversationId : Option String) : Request
deriving DecidableEq, Repr

/-- An exception raised while a method runs. -/
inductive JsError where
  /-- The promise of `fetch` or of `response.json()` rejects. -/
  | network : JsError
  /-- The error thrown for a response whose `ok` is false. -/
  | http : JsError
  /-- A property access on `undefined`. -/
  | typeError : JsError
deriving DecidableEq, Repr

/-- The fields of a `HistoryManager` instance that carry conversation state. -/
structure HistoryManager where
  currentConversationId : Option String
  conversations : List HistoryConversation
deriving DecidableEq, Repr

/-- The state change of `HistoryManager.loadConversations` (history.js lines 30-42); the body is
`none` when `response.json()` rejects. -/
def HistoryManager.loadConversations (hm : HistoryManager)
    (result : FetchResult (Option (List HistoryConversation))) : HistoryManager :=
  match result with
  | FetchResult.rejected => hm
  | FetchResult.response ok body =>
    if ok then
      match body with
      | some convs => { hm with conversations := convs }
      | none => hm
    else hm

/-- The method `HistoryManager.deleteConversation` (history.js lines 255-279): the new state and
the requests issued.  `confirmed` is the answer to `confirm`, `deletion` the outcome of the
`DELETE` request and `reload` that of the `GET` request of `loadConversations`. -/
def HistoryManager.deleteConversation (hm : HistoryManager) (conversationId : String)
    (confirmed : Bool) (deletion : FetchResult Unit)
    (reload : FetchResult (Option (List HistoryConversation))) :
    HistoryManager × List Request :=
  if !confirmed then (hm, [])
  else
    match deletion with
    | FetchResult.rejected => (hm, [Request.deleteConversation conversationId])
    | FetchResult.response ok _ =>
      if !ok then (hm, [Request.deleteConversation conversationId])
      else
        let hm1 : HistoryManager :=
          if hm.currentConversationId = some conversationId then
            { hm with currentConversationId := none }
          else hm
        (HistoryManager.loadConversations hm1 reload,
          [Request.deleteConversation conversationId, Request.getConversations])

/-- The method `HistoryManager.renameConversation` (history.js lines 225-253): the new state and
the requests issued.  `answer` is the result of `prompt` (`none` when the dialog is cancelled),
`patch` the outcome of the `PATCH` request and `reload` that of the following `GET` request. -/
def HistoryManager.renameConversation (hm : HistoryManager) (conversationId : String)
    (answer : Option String) (patch : FetchResult Unit)
    (reload : FetchResult (Option (List HistoryConversation))) :
    HistoryManager × List Request :=
  match answer with
  | none => (hm, [])
  | some newTitle =>
    if jsTrim newTitle ≠ "" then
      match patch with
      | FetchResult.rejected => (hm, [Request.patchTitle conversationId (jsTrim newTitle)])
      | FetchResult.response ok _ =>
        if !ok then (hm, [Request.patchTitle conversationId (jsTrim newTitle)])
        else
          (HistoryManager.loadConversations hm reload,
            [Request.patchTitle conversationId (jsTrim newTitle), Request.getConversations])
    else (hm, [])

/-- The body of the `try` block of `updateConversationTitle` (script.js lines 298-303);
`putRejects` tells whether the promise of the `PUT` request rejects. -/
def updateConversationTitleTry (app : ChatApp) (convId title : String) (putRejects : Bool) :
    Except JsError ChatApp :=
  if putRejects then Except.error JsError.network
  else
    match JsObject.get app.conversations convId with
    | none => Except.error JsError.typeError
    | some conv =>
      Except.ok { app with
        conversations := JsObject.set app.conversations convId { conv with title := some title } }

/-- The method `updateConversationTitle` (script.js lines 296-307): the `catch` block logs the
error and the method returns. -/
def updateConversationTitle (app : ChatApp) (convId title : String) (putRejects : Bool) :
    Except JsError ChatApp :=
  match updateConversationTitleTry app convId title putRejects with
  | Except.ok app1 => Except.ok app1
  | Except.error _ => Except.ok app

/-- The state change of `sendMessageToAPI` (script.js lines 120-139); the body of the response is
its `response` field, `none` when `response.json()` rejects. -/
def sendMessageToAPI (app : ChatApp) (chat : FetchResult (Option String)) (timestamp : String) :
    Except JsError ChatApp :=
  match chat with
  | FetchResult.rejected => Except.error JsError.network
  | FetchResult.response ok body =>
    if !ok then Except.error JsError.http
    else
      match body with
      | none => Except.error JsError.network
      | some reply =>
        match pushMessage app { content := reply, sender := "ai", timestamp := timestamp } with
        | some app1 => Except.ok app1
        | none => Except.error JsError.typeError

/-- The state change of `simulateAIResponse` (script.js lines 315-324); `none` when the push
raises a `TypeError`. -/
def simulateAIResponse (app : ChatApp) (message timestamp : String) : Option ChatApp :=
  pushMessage app
    { content := "Simulé : je n'ai pas pu contacter le serveur pour \x22" ++ message ++ "\x22"
      sender := "ai", timestamp := timestamp }

/-- The requests of the loop of `saveConversations` (script.js lines 228-234): one `PUT` per
conversation, up to and including the first one that rejects. -/
def putRequests (rejects : Conversation → Bool) : List Conversation → List Request
  | [] => []
  | conv :: rest =>
    Request.putConversation conv.id conv.title conv.messages ::
      (if rejects conv then [] else putRequests rejects rest)

/-- The snapshot written by the `catch` block of `saveConversations` (script.js lines 237-240).
`conversationsData` is the array built at line 226, its records in the state they have when the
block runs, and `app` is the state at that moment: `this.currentConversationId` is read then. -/
def saveConversationsCatch (conversationsData : List Conversation) (app : ChatApp) : Snapshot :=
  { conversations := conversationsData, currentId := app.currentConversationId }

/-- The `chatConversations` entry after a call of `saveConversations` that was started earlier has
settled: `conversationsData` is the array it built when it was called, `app` the state when its
`catch` block runs, if it does. -/
def saveConversationsLater (conversationsData : List Conversation)
    (rejects : Conversation → Bool) (app : ChatApp) (storage : Option Snapshot) :
    Option Snapshot :=
  if putAll rejects conversationsData then storage
  else some (saveConversationsCatch conversationsData app)

/-- The request that `saveConversations` issues before its first `await`: the `PUT` for the first
conversation of its array. -/
def firstPutRequest : List Conversation → List Request
  | [] => []
  | conv :: _ => [Request.putConversation conv.id conv.title conv.messages]

/-- What the environment hands to one run of `sendMessage`: the clock and random values read by
`startNewConversation`, the outcomes of the requests that the method awaits and the timestamps of
the new messages. -/
structure SendEnv where
  now : Nat
  rand : String
  nowIso : String
  titlePutRejects : Bool
  userTimestamp : String
  chat : FetchResult (Option String)
  replyTimestamp : String

/-- The outcome of one run of `sendMessage`: the state and the requests issued when the method
returns, and the array `conversationsData` of the call of `saveConversations` that it started and
did not await (script.js line 115), `none` when it started none. -/
structure SendResult where
  app : ChatApp
  requests : List Request
  pendingSave : Option (List Conversation)
deriving DecidableEq

/-- The title that `sendMessage` gives to a conversation on its first message
(script.js line 92). -/
def firstMessageTitle (message : String) : String :=
  jsSubstringTo message 50 ++ (if jsLength message > 50 then "..." else "")

/-- The method `sendMessage` (script.js lines 78-118); `input` is the value of the text area.
The call of `saveConversations` at line 115 is not awaited: it builds its array and issues its
first `PUT` at once, and goes on after `sendMessage` has returned.  The result is `none` when an
exception escapes, which only a push into a missing record can cause. -/
def sendMessage (app : ChatApp) (input : String) (env : SendEnv) : Option SendResult :=
  let message := jsTrim input
  if message = "" then some { app := app, requests := [], pendingSave := none }
  else
    let app1 :=
      if truthy app.currentConversationId then app
      else startNewConversation app env.now env.rand env.nowIso
    let convId := propertyKey app1.currentConversationId
    let titled : Except JsError ChatApp × List Request :=
      if app1.isFirstMessage then
        (updateConversationTitle { app1 with isFirstMessage := false } convId
            (firstMessageTitle message) env.titlePutRejects,
          [Request.putTitle convId (firstMessageTitle message)])
      else (Except.ok app1, [])
    match titled.1 with
    | Except.error _ => none
    | Except.ok app2 =>
      match pushMessage app2
          { content := message, sender := "user", timestamp := env.userTimestamp } with
      | none => none
      | some app3 =>
        let replied : Option ChatApp :=
          match sendMessageToAPI app3 env.chat env.replyTimestamp with
          | Except.ok app4 => some app4
          | Except.error _ => simulateAIResponse app3 message env.replyTimestamp
        match replied with
        | none => none
        | some app4 =>
          some
            { app := app4
              requests := titled.2 ++ [Request.postChat message app3.currentConversationId] ++
                firstPutRequest (conversationsData app4)
              pendingSave := some (conversationsData app4) }

/-- The `chatConversations` entry once the call of `saveConversations` that a run of `sendMessage`
started has settled; `app` is the state when its `catch` block runs. -/
def storageAfter (result : SendResult) (rejects : Conversation → Bool) (app : ChatApp)
    (storage : Option Snapshot) : Option Snapshot :=
  match result.pendingSave with
  | none => storage
  | some conversationsData => saveConversationsLater conversationsData rejects app storage

/-- A title made of blanks only. -/
def sampleBlank : String := " \t  "

/-- A record without title whose first message is made of blanks only. -/
def sampleBlankFirst : HistoryConversation :=
  { id := "b", title := none, first_message := some "   ", updated_at := none }

/-- A `HistoryManager` showing two conversations, the recent one selected. -/
def sampleHistory : HistoryManager :=
  { currentConversationId := some "r", conversations := [sampleMonthOld, sampleRecent] }

/-- An environment of `sendMessage` in which every request is rejected. -/
def sampleOffline : SendEnv :=
  { now := 1704153600000, rand := "k3x9q2m1z", nowIso := "2024-01-02T00:00:00.000Z",
    titlePutRejects := true, userTimestamp := "2024-01-02T00:00:01.000Z",
    chat := FetchResult.rejected, replyTimestamp := "2024-01-02T00:00:02.000Z" }

/-- The five entities that `escapeHtml` produces. -/
def htmlEntities : List (List Char) :=
  ["&amp;".data, "&lt;".data, "&gt;".data, "&quot;".data, "&#039;".data]

/-- The five characters that `escapeHtml` replaces: `&`, `<`, `>`, the double quote and the
apostrophe. -/
def htmlSpecials : List Char := ['&', '<', '>', Char.ofNat 34, Char.ofNat 39]

/-- The text that stands for one character when every special character is replaced once. -/
def escapeCharOnce (c : Char) : List Char :=
  if c = '&' then "&amp;".data
  else if c = '<' then "&lt;".data
  else if c = '>' then "&gt;".data
  else if c = Char.ofNat 34 then "&quot;".data
  else if c = Char.ofNat 39 then "&#039;".data
  else [c]

/-- The conversation created by a first message `Bonjour` sent while the server cannot be
reached. -/
def sampleSentConversation : Conversation :=
  { id := "conv_1704153600000_k3x9q2m1z", title := some "Nouvelle conversation",
    messages :=
      [{ content := "Bonjour", sender := "user", timestamp := "2024-01-02T00:00:01.000Z" },
       { content := "Simulé : je n'ai pas pu contacter le serveur pour \x22Bonjour\x22",
         sender := "ai", timestamp := "2024-01-02T00:00:02.000Z" }],
    snippet := none, timestamp := "2024-01-02T00:00:00.000Z" }

/-- The outcome of sending `Bonjour` from the initial state while the server cannot be reached:
the save that was started holds the one conversation. -/
def sampleSent : SendResult :=
  { app :=
      { conversations := [("conv_1704153600000_k3x9q2m1z", sampleSentConversation)]
        currentConversationId := some "conv_1704153600000_k3x9q2m1z"
        isFirstMessage := false }
    requests :=
      [Request.putTitle "conv_1704153600000_k3x9q2m1z" "Bonjour",
        Request.postChat "Bonjour" (some "conv_1704153600000_k3x9q2m1z"),
        Request.putConversation "conv_1704153600000_k3x9q2m1z" (some "Nouvelle conversation")
          sampleSentConversation.messages]
    pendingSave := some [sampleSentConversation] }

/-- The state after the user opened a new conversation while the save started by `sampleSent` was
still waiting for the answer to its `PUT`. -/
def sampleNewChat : ChatApp :=
  startNewConversation sampleSent.app 1704153603000 "q7w1e5r3t" "2024-01-02T00:00:03.000Z"

/-- The local entry after that `PUT` was rejected: the `catch` block wrote the conversation of the
first message together with the id of the new, empty conversation. -/
def sampleLateEntry : Option Snapshot :=
  storageAfter sampleSent (fun _ => true) sampleNewChat none

/-- The state after the page was loaded again while the server could still not be reached. -/
def sampleReloaded : ChatApp :=
  loadConversations ChatApp.initial FetchResult.rejected "2024-01-03T00:00:00.000Z"
    sampleLateEntry

/-- The invariant of the store: a current conversation id that is not `null` is a key of the
store, and every record is stored under its own id. -/
def StoreInv (app : ChatApp) : Prop :=
  (∀ id, app.currentConversationId = some id →
      ∃ c, JsObject.get app.conversations id = some c) ∧
    (∀ k c, JsObject.get app.conversations k = some c → c.id = k)

/-- The invariant of the local entry: the current id of a snapshot, when not `null`, is the id of
one of its conversations. -/
def SnapshotInv (storage : Option Snapshot) : Prop :=
  ∀ snap, storage = some snap → ∀ id, snap.currentId = some id →
    ∃ c ∈ snap.conversations, c.id = id

/-! ## Lemmas on dictionary objects and on sorting -/

open JsObject

theorem JsObject.ownEntries_perm {α : Type} (o : JsObject α) : (ownEntries o).Perm o := by
  unfold ownEntries
  exact ((List.perm_insertionSort _ _).append_right _).trans (List.filter_append_perm _ o)

theorem JsObject.values_perm {α : Type} (o : JsObject α) : (values o).Perm (o.map Prod.snd) :=
  (JsObject.ownEntries_perm o).map _

theorem arraySort_perm {α : Type} (comparefn : α → α → Option Int) (l : List α) :
    (arraySort comparefn l).Perm l :=
  List.perm_insertionSort _ l

theorem JsObject.get_set_self {α : Type} (o : JsObject α) (k : String) (v : α) :
    get (set o k v) k = some v := by
  induction o with
  | nil => simp [set, get]
  | cons p rest ih =>
    obtain ⟨k', v'⟩ := p
    by_cases h : k' = k <;> simp [set, get, h, ih]

theorem JsObject.get_set_of_ne {α : Type} (o : JsObject α) (k k' : String) (v : α) (h : k ≠ k') :
    get (set o k v) k' = get o k' := by
  induction o with
  | nil => simp [set, get, h]
  | cons p rest ih =>
    obtain ⟨k₁, v₁⟩ := p
    by_cases h₁ : k₁ = k
    · subst h₁
      simp [set, get, h]
    · by_cases h₂ : k₁ = k'
      · subst h₂
        simp [set, get, h₁]
      · simp [set, get, h₁, h₂, ih]

theorem JsObject.mem_keys_set {α : Type} (o : JsObject α) (k k' : String) (v : α) :
    k' ∈ keys (set o k v) ↔ k' = k ∨ k' ∈ keys o := by
  induction o with
  | nil => simp [set, keys]
  | cons p rest ih =>
    obtain ⟨k₁, v₁⟩ := p
    by_cases h₁ : k₁ = k
    · subst h₁
      simp [set, keys]
    · simp only [keys] at ih
      simp [set, keys, h₁, ih]
      tauto

theorem JsObject.get_eq_none_iff {α : Type} (o : JsObject α) (k : String) :
    get o k = none ↔ k ∉ keys o := by
  induction o with
  | nil => simp [get, keys]
  | cons p rest ih =>
    obtain ⟨k₁, v₁⟩ := p
    simp only [keys] at ih
    by_cases h₁ : k₁ = k
    · simp [get, keys, h₁]
    · simp only [get, keys, h₁, if_false, ih, List.map_cons, List.mem_cons, not_or]
      exact ⟨fun h => ⟨fun e => h₁ e.symm, h⟩, fun h => h.2⟩

theorem JsObject.mem_of_get {α : Type} (o : JsObject α) (k : String) (v : α)
    (h : get o k = some v) : (k, v) ∈ o := by
  induction o with
  | nil => simp [get] at h
  | cons p rest ih =>
    obtain ⟨k₁, v₁⟩ := p
    by_cases h₁ : k₁ = k
    · simp [get, h₁] at h
      simp [h₁, h]
    · simp [get, h₁] at h
      exact List.mem_cons_of_mem _ (ih h)

theorem JsObject.mem_values {α : Type} (o : JsObject α) (v : α) :
    v ∈ values o ↔ ∃ k, (k, v) ∈ o := by
  rw [(JsObject.values_perm o).mem_iff]
  simp

/-- Storing a list of records under their ids: the keys afterwards. -/
theorem JsObject.mem_keys_foldl_set {α β : Type} (f : β → String) (g : β → α) (l : List β) :
    ∀ (o : JsObject α) (k : String),
      k ∈ keys (l.foldl (fun o x => set o (f x) (g x)) o) ↔ k ∈ keys o ∨ ∃ x ∈ l, f x = k := by
  induction l with
  | nil => intro o k; simp
  | cons x xs ih =>
    intro o k
    simp only [List.foldl_cons, ih, JsObject.mem_keys_set, List.mem_cons]
    constructor
    · rintro ((h | h) | ⟨y, hy, h⟩)
      · exact Or.inr ⟨x, Or.inl rfl, h.symm⟩
      · exact Or.inl h
      · exact Or.inr ⟨y, Or.inr hy, h⟩
    · rintro (h | ⟨y, rfl | hy, h⟩)
      · exact Or.inl (Or.inr h)
      · exact Or.inl (Or.inl h.symm)
      · exact Or.inr ⟨y, hy, h⟩

theorem JsObject.get_foldl_set_of_not_mem {α β : Type} (f : β → String) (g : β → α)
    (l : List β) : ∀ (o : JsObject α) (k : String), (∀ x ∈ l, f x ≠ k) →
      get (l.foldl (fun o x => set o (f x) (g x)) o) k = get o k := by
  induction l with
  | nil => intro o k _; rfl
  | cons x xs ih =>
    intro o k h
    simp only [List.foldl_cons]
    rw [ih _ _ (fun y hy => h y (List.mem_cons_of_mem _ hy)),
      JsObject.get_set_of_ne _ _ _ _ (h x (List.mem_cons_self _ _))]

theorem JsObject.get_foldl_set_of_nodup {α β : Type} (f : β → String) (g : β → α)
    (l : List β) : ∀ (o : JsObject α), (l.map f).Nodup → ∀ x ∈ l,
      get (l.foldl (fun o x => set o (f x) (g x)) o) (f x) = some (g x) := by
  induction l with
  | nil => intro o _ x hx; simp at hx
  | cons y ys ih =>
    intro o hnd x hx
    simp only [List.map_cons, List.nodup_cons] at hnd
    simp only [List.foldl_cons]
    rcases List.mem_cons.1 hx with rfl | hx'
    · rw [JsObject.get_foldl_set_of_not_mem, JsObject.get_set_self]
      intro z hz hzx
      exact hnd.1 (List.mem_map.2 ⟨z, hz, hzx⟩)
    · exact ih _ hnd.2 x hx'

theorem pairwise_orderedInsert {α : Type} (r : α → α → Prop) [DecidableRel r] (P : α → Prop)
    (htot : ∀ a b, P a → P b → r a b ∨ r b a)
    (htr : ∀ a b c, P a → P b → P c → r a b → r b c → r a c) (a : α) (ha : P a) :
    ∀ l : List α, (∀ x ∈ l, P x) → l.Pairwise r → (List.orderedInsert r a l).Pairwise r := by
  intro l
  induction l with
  | nil => intro _ _; simp
  | cons b l ih =>
    intro hP hs
    have hb : P b := hP b (List.mem_cons_self _ _)
    have hl : ∀ x ∈ l, P x := fun x hx => hP x (List.mem_cons_of_mem _ hx)
    rw [List.pairwise_cons] at hs
    by_cases hab : r a b
    · rw [List.orderedInsert, if_pos hab]
      refine List.pairwise_cons.2 ⟨?_, List.pairwise_cons.2 hs⟩
      intro x hx
      rcases List.mem_cons.1 hx with rfl | hx'
      · exact hab
      · exact htr a b x ha hb (hl x hx') hab (hs.1 x hx')
    · rw [List.orderedInsert, if_neg hab]
      refine List.pairwise_cons.2 ⟨?_, ih hl hs.2⟩
      intro x hx
      rcases List.mem_cons.1 ((List.perm_orderedInsert r a l).mem_iff.1 hx) with rfl | hx'
      · exact (htot x b ha hb).resolve_left hab
      · exact hs.1 x hx'

theorem pairwise_insertionSort {α : Type} (r : α → α → Prop) [DecidableRel r] (P : α → Prop)
    (htot : ∀ a b, P a → P b → r a b ∨ r b a)
    (htr : ∀ a b c, P a → P b → P c → r a b → r b c → r a c) :
    ∀ l : List α, (∀ x ∈ l, P x) → (List.insertionSort r l).Pairwise r := by
  intro l
  induction l with
  | nil => intro _; simp
  | cons a l ih =>
    intro hP
    rw [List.insertionSort]
    refine pairwise_orderedInsert r P htot htr a (hP a (List.mem_cons_self _ _)) _ ?_
      (ih (fun x hx => hP x (List.mem_cons_of_mem _ hx)))
    intro x hx
    exact hP x (List.mem_cons_of_mem _ ((List.perm_insertionSort r l).mem_iff.1 hx))

/-- When every element has a valid date, the comparator of the list is consistent and the
sorted array is in descending order of time value. -/
theorem arraySort_descending (parseDate : String → Option Int) (l : List Conversation)
    (hvalid : ∀ c ∈ l, (parseDate c.timestamp).isSome = true) :
    (arraySort (compareByTimestamp parseDate) l).Pairwise
      (fun a b => ∃ ta tb, parseDate a.timestamp = some ta ∧ parseDate b.timestamp = some tb ∧
        tb ≤ ta) := by
  have key : ∀ a b : Conversation, (parseDate a.timestamp).isSome = true →
      (parseDate b.timestamp).isSome = true →
      (sortCompare (compareByTimestamp parseDate) a b ≤ 0 ↔
        ∃ ta tb, parseDate a.timestamp = some ta ∧ parseDate b.timestamp = some tb ∧
          tb ≤ ta) := by
    intro a b ha hb
    obtain ⟨ta, hta⟩ := Option.isSome_iff_exists.1 ha
    obtain ⟨tb, htb⟩ := Option.isSome_iff_exists.1 hb
    simp [sortCompare, compareByTimestamp, hta, htb]
  have hsorted := pairwise_insertionSort
    (fun x y => sortCompare (compareByTimestamp parseDate) x y ≤ 0)
    (fun c => (parseDate c.timestamp).isSome = true)
    (by
      intro a b ha hb
      show sortCompare (compareByTimestamp parseDate) a b ≤ 0 ∨
        sortCompare (compareByTimestamp parseDate) b a ≤ 0
      rw [key a b ha hb, key b a hb ha]
      obtain ⟨ta, hta⟩ := Option.isSome_iff_exists.1 ha
      obtain ⟨tb, htb⟩ := Option.isSome_iff_exists.1 hb
      rcases le_total ta tb with h | h
      · exact Or.inr ⟨tb, ta, htb, hta, h⟩
      · exact Or.inl ⟨ta, tb, hta, htb, h⟩)
    (by
      intro a b c ha hb hc hab hbc
      show sortCompare (compareByTimestamp parseDate) a c ≤ 0
      have hab : sortCompare (compareByTimestamp parseDate) a b ≤ 0 := hab
      have hbc : sortCompare (compareByTimestamp parseDate) b c ≤ 0 := hbc
      rw [key a b ha hb] at hab
      rw [key b c hb hc] at hbc
      rw [key a c ha hc]
      obtain ⟨ta, tb, hta, htb, h₁⟩ := hab
      obtain ⟨tb', tc, htb', htc, h₂⟩ := hbc
      rw [htb] at htb'
      cases htb'
      exact ⟨ta, tc, hta, htc, le_trans h₂ h₁⟩)
    l hvalid
  have hmem : ∀ x ∈ arraySort (compareByTimestamp parseDate) l,
      (parseDate x.timestamp).isSome = true :=
    fun x hx => hvalid x ((arraySort_perm _ l).mem_iff.1 hx)
  unfold arraySort at hmem ⊢
  refine List.Pairwise.imp_of_mem ?_ hsorted
  intro a b ha hb hab
  exact (key a b (hmem a ha) (hmem b hb)).1 hab

/-! ## The conversation store of `ChatApp` -/

theorem loadConversation_conversations (app : ChatApp) (convId : String) :
    (loadConversation app convId).conversations = app.conversations := by
  unfold loadConversation
  split <;> rfl

theorem loadConversation_current_of_current (app : ChatApp) (convId : String)
    (h : app.currentConversationId = some convId) :
    (loadConversation app convId).currentConversationId = some convId := by
  unfold loadConversation
  split
  · exact h
  · rfl

theorem loadConversationsFromLocalStorage_some (app : ChatApp) (data : Snapshot) :
    (loadConversationsFromLocalStorage app (some data)).conversations =
        data.conversations.foldl (fun o conv => JsObject.set o conv.id conv) app.conversations ∧
      (loadConversationsFromLocalStorage app (some data)).currentConversationId =
        data.currentId := by
  unfold loadConversationsFromLocalStorage
  cases hcur : data.currentId with
  | none => simp [hcur]
  | some id =>
    simp only [hcur]
    split
    · exact ⟨loadConversation_conversations _ _, loadConversation_current_of_current _ _ rfl⟩
    · exact ⟨rfl, rfl⟩

theorem renderConversationsList_visible (parseDate : String → Option Int) (app : ChatApp)
    (c : Conversation) :
    c ∈ renderConversationsList parseDate app ↔
      (∃ k, (k, c) ∈ app.conversations) ∧ c.messages.length > 0 := by
  unfold renderConversationsList
  rw [(arraySort_perm _ _).mem_iff, List.mem_filter, JsObject.mem_values]
  simp

/-- C1: the visible list computed by `renderConversationsList` holds exactly the stored
conversations that have at least one message: it is a rearrangement of the stored records with a
non-empty message list, so a record is listed if and only if it is stored and has a message. -/
theorem renderConversationsList_exactly_started (parseDate : String → Option Int)
    (app : ChatApp) :
    (renderConversationsList parseDate app).Perm
        ((JsObject.values app.conversations).filter (fun c => decide (c.messages.length > 0))) ∧
      (∀ c, c ∈ renderConversationsList parseDate app ↔
        (∃ k, (k, c) ∈ app.conversations) ∧ c.messages.length > 0) :=
  ⟨arraySort_perm _ _, renderConversationsList_visible parseDate app⟩

/-- C3 as stated fails: a conversation that has no message yet is not written to the snapshot, so
its id is missing after the round trip. -/
theorem roundtrip_drops_empty_conversation :
    putAll (fun _ => true) (conversationsData sampleApp) = false ∧
      "conv_1704153600000_k3x9q2m1z" ∈ JsObject.keys sampleApp.conversations ∧
      "conv_1704153600000_k3x9q2m1z" ∉ JsObject.keys
        (loadConversations ChatApp.initial FetchResult.rejected "2024-01-03T00:00:00.000Z"
          (saveConversations sampleApp (fun _ => true) none)).conversations := by
  decide

/-- C3, amended: when a remote write fails, saving and then loading into the initial store under
a transport failure yields a store whose keys are exactly the ids of the saved conversations that
have at least one message, and the same current conversation id. -/
theorem saveConversations_loadConversations_roundtrip (app : ChatApp)
    (rejects : Conversation → Bool) (nowIso : String) (storage : Option Snapshot)
    (hfail : putAll rejects (conversationsData app) = false) :
    (∀ k, k ∈ JsObject.keys
          (loadConversations ChatApp.initial FetchResult.rejected nowIso
            (saveConversations app rejects storage)).conversations ↔
        ∃ c, (∃ k', (k', c) ∈ app.conversations) ∧ c.messages.length > 0 ∧ c.id = k) ∧
      (loadConversations ChatApp.initial FetchResult.rejected nowIso
        (saveConversations app rejects storage)).currentConversationId =
        app.currentConversationId := by
  have hsave : saveConversations app rejects storage =
      some { conversations := conversationsData app, currentId := app.currentConversationId } := by
    simp [saveConversations, hfail]
  have hload := loadConversationsFromLocalStorage_some ChatApp.initial
    { conversations := conversationsData app, currentId := app.currentConversationId }
  rw [hsave]
  simp only [loadConversations]
  refine ⟨fun k => ?_, hload.2⟩
  rw [hload.1]
  refine (JsObject.mem_keys_foldl_set Conversation.id (fun c => c) _ _ k).trans ?_
  simp only [ChatApp.initial, JsObject.keys, List.map_nil, List.not_mem_nil, false_or,
    conversationsData, List.mem_filter, JsObject.mem_values, decide_eq_true_eq]
  constructor
  · rintro ⟨c, ⟨hc, hm⟩, rfl⟩
    exact ⟨c, hc, hm, rfl⟩
  · rintro ⟨c, hc, hm, rfl⟩
    exact ⟨c, ⟨hc, hm⟩, rfl⟩

/-- An instance of the amended C3 on the sample store, every `PUT` rejecting. -/
theorem saveConversations_loadConversations_roundtrip_witness :
    putAll (fun _ => true) (conversationsData sampleApp) = false ∧
      ((∀ k, k ∈ JsObject.keys
            (loadConversations ChatApp.initial FetchResult.rejected "2024-01-03T00:00:00.000Z"
              (saveConversations sampleApp (fun _ => true) none)).conversations ↔
          ∃ c, (∃ k', (k', c) ∈ sampleApp.conversations) ∧ c.messages.length > 0 ∧ c.id = k) ∧
        (loadConversations ChatApp.initial FetchResult.rejected "2024-01-03T00:00:00.000Z"
          (saveConversations sampleApp (fun _ => true) none)).currentConversationId =
          sampleApp.currentConversationId) :=
  ⟨by decide, saveConversations_loadConversations_roundtrip sampleApp (fun _ => true)
    "2024-01-03T00:00:00.000Z" none (by decide)⟩

/-- A response of non-success status leaves the state as it was, whatever the snapshot. -/
theorem loadConversations_status_failure (app : ChatApp) (body : ConversationsBody)
    (nowIso : String) (saved : Option Snapshot) :
    loadConversations app (FetchResult.response false body) nowIso saved = app := by
  simp [loadConversations]

/-- A transport failure hands over to `loadConversationsFromLocalStorage`, which leaves the state
as it was when there is no snapshot. -/
theorem loadConversations_rejected (app : ChatApp) (nowIso : String) (saved : Option Snapshot) :
    loadConversations app FetchResult.rejected nowIso saved =
        loadConversationsFromLocalStorage app saved ∧
      loadConversationsFromLocalStorage app none = app :=
  ⟨rfl, rfl⟩

/-- C4: with a response of non-success status `loadConversations` does not read the local
snapshot: the store stays empty although a snapshot holding conversation `a` exists, whereas the
same call under a transport failure loads it. -/
theorem loadConversations_status_failure_skips_snapshot :
    (loadConversations ChatApp.initial
        (FetchResult.response false (ConversationsBody.object none))
        "2024-01-03T00:00:00.000Z" (some sampleSnapshot)).conversations = [] ∧
      (loadConversations ChatApp.initial
        (FetchResult.response false (ConversationsBody.object none))
        "2024-01-03T00:00:00.000Z" (some sampleSnapshot)).currentConversationId = none ∧
      (loadConversations ChatApp.initial FetchResult.rejected
        "2024-01-03T00:00:00.000Z" (some sampleSnapshot)).conversations = [("a", sampleStarted)] ∧
      (loadConversations ChatApp.initial FetchResult.rejected
        "2024-01-03T00:00:00.000Z" (some sampleSnapshot)).currentConversationId = some "a" := by
  decide

/-- C5: when every stored conversation carries a valid timestamp, the visible list is a
rearrangement of the conversations with at least one message in which every entry's time value is
greater than or equal to that of every later entry. -/
theorem renderConversationsList_descending (parseDate : String → Option Int) (app : ChatApp)
    (hvalid : ∀ c ∈ JsObject.values app.conversations, (parseDate c.timestamp).isSome = true) :
    (renderConversationsList parseDate app).Perm
        ((JsObject.values app.conversations).filter (fun c => decide (c.messages.length > 0))) ∧
      (renderConversationsList parseDate app).Pairwise
        (fun a b => ∃ ta tb, parseDate a.timestamp = some ta ∧ parseDate b.timestamp = some tb ∧
          tb ≤ ta) :=
  ⟨arraySort_perm _ _,
    arraySort_descending parseDate _ (fun c hc => hvalid c (List.mem_of_mem_filter hc))⟩

/-- The visible list of the store with two started conversations: the later one comes first. -/
theorem renderConversationsList_two :
    renderConversationsList sampleParseDate sampleTwoApp = [sampleLater, sampleStarted] := by
  decide

/-- An instance of C5 on a store whose two conversations both hold a message, the earlier one
stored first. -/
theorem renderConversationsList_descending_witness :
    (∀ c ∈ JsObject.values sampleTwoApp.conversations,
        (sampleParseDate c.timestamp).isSome = true) ∧
      ((renderConversationsList sampleParseDate sampleTwoApp).Perm
          ((JsObject.values sampleTwoApp.conversations).filter
            (fun c => decide (c.messages.length > 0))) ∧
        (renderConversationsList sampleParseDate sampleTwoApp).Pairwise
          (fun a b => ∃ ta tb, sampleParseDate a.timestamp = some ta ∧
            sampleParseDate b.timestamp = some tb ∧ tb ≤ ta)) :=
  ⟨by decide, renderConversationsList_descending sampleParseDate sampleTwoApp (by decide)⟩

theorem storeRemote_conversations (app : ChatApp) (nowIso : String)
    (records : List RemoteConversation) :
    (storeRemote app nowIso records).conversations =
      records.foldl (fun o conv => JsObject.set o conv.id (normalize nowIso conv))
        app.conversations := by
  unfold storeRemote
  cases records with
  | nil => rfl
  | cons first rest => exact loadConversation_conversations _ _

theorem normalize_timestamp_updated (nowIso : String) (conv : RemoteConversation) (u : String)
    (h : conv.updated_at = some u) (hu : u ≠ "") : (normalize nowIso conv).timestamp = u := by
  simp [normalize, jsOr, truthy, h, hu]

theorem normalize_timestamp_created (nowIso : String) (conv : RemoteConversation) (v : String)
    (hup : truthy conv.updated_at = false) (h : conv.created_at = some v) (hv : v ≠ "") :
    (normalize nowIso conv).timestamp = v := by
  have hv' : truthy (some v) = true := by simp [truthy, hv]
  simp [normalize, jsOr, hup, h, hv']

/-- C8 as stated fails: a record whose `updated_at` is present but empty is stored with the
timestamp of its `created_at`. -/
theorem loadConversations_empty_updated_at :
    sampleRemoteEmptyUpdate.updated_at = some "" ∧
      (JsObject.get
        (loadConversations ChatApp.initial
          (FetchResult.response true (ConversationsBody.array [sampleRemoteEmptyUpdate]))
          "2024-01-03T00:00:00.000Z" none).conversations "a").map Conversation.timestamp =
        some "2024-01-01T00:00:00.000Z" := by
  decide

/-- C8, amended: after a successful response holding records with pairwise distinct ids, given as
a bare array or under `conversations`, the store has for every returned record an entry under the
record's id, with that id, whose timestamp is the record's `updated_at` when that is present and
not empty, and otherwise its `created_at` when that is present and not empty. -/
theorem loadConversations_success_normalizes (app : ChatApp) (nowIso : String)
    (saved : Option Snapshot) (records : List RemoteConversation) (body : ConversationsBody)
    (hbody : body = ConversationsBody.array records ∨
      body = ConversationsBody.object (some records))
    (hdistinct : (records.map RemoteConversation.id).Nodup) :
    ∀ r ∈ records, ∃ c,
      JsObject.get (loadConversations app (FetchResult.response true body) nowIso
        saved).conversations r.id = some c ∧
      c.id = r.id ∧
      (∀ u, r.updated_at = some u → u ≠ "" → c.timestamp = u) ∧
      (truthy r.updated_at = false → ∀ v, r.created_at = some v → v ≠ "" →
        c.timestamp = v) := by
  intro r hr
  have hstore : (loadConversations app (FetchResult.response true body) nowIso
      saved).conversations =
      records.foldl (fun o conv => JsObject.set o conv.id (normalize nowIso conv))
        app.conversations := by
    rcases hbody with rfl | rfl <;> simp [loadConversations, storeRemote_conversations]
  refine ⟨normalize nowIso r, ?_, rfl, ?_, ?_⟩
  · rw [hstore]
    exact JsObject.get_foldl_set_of_nodup RemoteConversation.id (normalize nowIso) records _
      hdistinct r hr
  · exact fun u h hu => normalize_timestamp_updated nowIso r u h hu
  · exact fun hup v h hv => normalize_timestamp_created nowIso r v hup h hv

/-- An instance of the amended C8 for a response holding the sample record. -/
theorem loadConversations_success_normalizes_witness :
    (ConversationsBody.array [sampleRemote] = ConversationsBody.array [sampleRemote] ∨
        ConversationsBody.array [sampleRemote] =
          ConversationsBody.object (some [sampleRemote])) ∧
      ([sampleRemote].map RemoteConversation.id).Nodup ∧
      ∀ r ∈ [sampleRemote], ∃ c,
        JsObject.get (loadConversations ChatApp.initial
          (FetchResult.response true (ConversationsBody.array [sampleRemote]))
          "2024-01-03T00:00:00.000Z" none).conversations r.id = some c ∧
        c.id = r.id ∧
        (∀ u, r.updated_at = some u → u ≠ "" → c.timestamp = u) ∧
        (truthy r.updated_at = false → ∀ v, r.created_at = some v → v ≠ "" →
          c.timestamp = v) :=
  ⟨Or.inl rfl, by decide,
    loadConversations_success_normalizes ChatApp.initial "2024-01-03T00:00:00.000Z" none
      [sampleRemote] (ConversationsBody.array [sampleRemote]) (Or.inl rfl) (by decide)⟩

theorem JsObject.values_singleton {α : Type} (k : String) (v : α) :
    JsObject.values [(k, v)] = [v] := by
  cases h : isArrayIndex k <;> simp [JsObject.values, JsObject.ownEntries, h]

theorem generateId_data (now : Nat) (rand : String) :
    (generateId now rand).data = "conv_".data ++ ((Nat.repr now).data ++ ('_' :: rand.data)) := by
  simp [generateId, String.data_append, List.append_assoc]
  rfl

/-- C9: `startNewConversation` makes the generated id, which begins with `conv_`, the current
conversation id and stores under it a record with that id, the title `Nouvelle conversation` and
no message; that record is not in the visible list, and after one message is pushed into a store
that was empty before, the visible list is exactly that conversation holding the one message. -/
theorem startNewConversation_creates_current (parseDate : String → Option Int) (app : ChatApp)
    (now : Nat) (rand nowIso : String) (msg : Message) :
    (startNewConversation app now rand nowIso).currentConversationId =
        some (generateId now rand) ∧
      "conv_".data <+: (generateId now rand).data ∧
      JsObject.get (startNewConversation app now rand nowIso).conversations
          (generateId now rand) =
        some { id := generateId now rand, title := some "Nouvelle conversation", messages := [],
               snippet := none, timestamp := nowIso } ∧
      ({ id := generateId now rand, title := some "Nouvelle conversation", messages := [],
         snippet := none, timestamp := nowIso } : Conversation) ∉
        renderConversationsList parseDate (startNewConversation app now rand nowIso) ∧
      (pushMessage (startNewConversation ChatApp.initial now rand nowIso) msg).map
          (renderConversationsList parseDate) =
        some [{ id := generateId now rand, title := some "Nouvelle conversation",
                messages := [msg], snippet := none, timestamp := nowIso }] := by
  refine ⟨rfl, ?_, ?_, ?_, ?_⟩
  · rw [generateId_data]
    exact List.prefix_append _ _
  · exact JsObject.get_set_self _ _ _
  · intro h
    have := ((renderConversationsList_visible parseDate _ _).1 h).2
    simp at this
  · simp [pushMessage, startNewConversation, ChatApp.initial, propertyKey, JsObject.set,
      JsObject.get, renderConversationsList, JsObject.values_singleton, arraySort]

theorem digitChar_value : ∀ k, k < 10 → (Nat.digitChar k).toNat - 48 = k ∧ Nat.digitChar k ≠ '_' := by
  decide

theorem toDigitsCore_spec : ∀ (fuel n : Nat) (ds : List Char), n < fuel →
    ∃ l, Nat.toDigitsCore 10 fuel n ds = l ++ ds ∧ digitsValue l = n ∧ '_' ∉ l := by
  intro fuel
  induction fuel with
  | zero => intro n ds h; omega
  | succ fuel ih =>
    intro n ds h
    have hd := digitChar_value (n % 10) (Nat.mod_lt _ (by decide))
    rw [Nat.toDigitsCore]
    by_cases h0 : n / 10 = 0
    · refine ⟨[Nat.digitChar (n % 10)], by simp [h0], ?_, ?_⟩
      · simp only [digitsValue, List.foldl_cons, List.foldl_nil]
        omega
      · simpa using hd.2.symm
    · obtain ⟨l, hl, hv, hn⟩ := ih (n / 10) (Nat.digitChar (n % 10) :: ds) (by omega)
      refine ⟨l ++ [Nat.digitChar (n % 10)], by simp [h0, hl], ?_, ?_⟩
      · simp only [digitsValue, List.foldl_append, List.foldl_cons, List.foldl_nil] at hv ⊢
        omega
      · simp only [List.mem_append, List.mem_singleton, not_or]
        exact ⟨hn, hd.2.symm⟩

theorem repr_spec (n : Nat) : digitsValue (Nat.repr n).data = n ∧ '_' ∉ (Nat.repr n).data := by
  obtain ⟨l, hl, hv, hn⟩ := toDigitsCore_spec (n + 1) n [] (Nat.lt_succ_self n)
  have : (Nat.repr n).data = l := by
    simp [Nat.repr, Nat.toDigits, hl, List.asString]
  rw [this]
  exact ⟨hv, hn⟩

theorem append_cons_inj_of_not_mem_left {α : Type} {a : α} :
    ∀ {x₁ x₂ z₁ z₂ : List α}, a ∉ x₁ → a ∉ x₂ → x₁ ++ a :: z₁ = x₂ ++ a :: z₂ →
      x₁ = x₂ ∧ z₁ = z₂ := by
  intro x₁
  induction x₁ with
  | nil =>
    intro x₂ z₁ z₂ _ h₂ h
    cases x₂ with
    | nil => simpa using h
    | cons b x₂ =>
      simp only [List.nil_append, List.cons_append, List.cons.injEq] at h
      exact absurd (List.mem_cons_self _ _) (h.1 ▸ h₂)
  | cons b x₁ ih =>
    intro x₂ z₁ z₂ h₁ h₂ h
    cases x₂ with
    | nil =>
      simp only [List.nil_append, List.cons_append, List.cons.injEq] at h
      exact absurd (List.mem_cons_self _ _) (h.1 ▸ h₁)
    | cons c x₂ =>
      simp only [List.cons_append, List.cons.injEq] at h
      obtain ⟨hx, hz⟩ := ih (fun hm => h₁ (List.mem_cons_of_mem _ hm))
        (fun hm => h₂ (List.mem_cons_of_mem _ hm)) h.2
      exact ⟨by rw [h.1, hx], hz⟩

/-- The generated id determines the clock reading and the random suffix it was built from. -/
theorem generateId_injective (n₁ n₂ : Nat) (r₁ r₂ : String)
    (h : generateId n₁ r₁ = generateId n₂ r₂) : n₁ = n₂ ∧ r₁ = r₂ := by
  have hdata := congrArg String.data h
  rw [generateId_data, generateId_data] at hdata
  obtain ⟨hn, hr⟩ := append_cons_inj_of_not_mem_left (repr_spec n₁).2 (repr_spec n₂).2
    (List.append_cancel_left hdata)
  refine ⟨?_, String.ext hr⟩
  rw [← (repr_spec n₁).1, ← (repr_spec n₂).1, hn]

theorem JsObject.get_set_of_not_mem {α : Type} (o : JsObject α) (k k' : String) (v c : α)
    (hk : k ∉ JsObject.keys o) (h : JsObject.get o k' = some c) :
    JsObject.get (JsObject.set o k v) k' = some c := by
  rw [JsObject.get_set_of_ne _ _ _ _ ?_, h]
  rintro rfl
  rw [(JsObject.get_eq_none_iff o k).2 hk] at h
  cases h

/-- C10 as stated fails: a second `startNewConversation` at the same clock reading and with the
same random suffix generates an id that is already a key of the store and replaces the record
stored under it, here one that holds a message. -/
theorem startNewConversation_same_id_overwrites :
    pushMessage (startNewConversation ChatApp.initial 1704153600000 "k3x9q2m1z"
        "2024-01-02T00:00:00.000Z") sampleMessage = some sampleAfterFirstMessage ∧
      generateId 1704153600000 "k3x9q2m1z" ∈ JsObject.keys sampleAfterFirstMessage.conversations ∧
      (JsObject.get sampleAfterFirstMessage.conversations
          (generateId 1704153600000 "k3x9q2m1z")).map Conversation.messages =
        some [sampleMessage] ∧
      (JsObject.get (startNewConversation sampleAfterFirstMessage 1704153600000 "k3x9q2m1z"
          "2024-01-02T00:00:00.000Z").conversations
          (generateId 1704153600000 "k3x9q2m1z")).map Conversation.messages = some [] := by
  decide

/-- C10, amended: ids generated from different clock readings or different random suffixes are
different (an id generated twice comes from the same reading and the same suffix), and when the
generated id is not yet a key of the store, `startNewConversation` leaves every record that was
stored before in place under its key. -/
theorem startNewConversation_preserves_when_fresh (app : ChatApp) (now : Nat)
    (rand nowIso : String)
    (hfresh : generateId now rand ∉ JsObject.keys app.conversations) :
    (∀ now' rand', generateId now' rand' = generateId now rand → now' = now ∧ rand' = rand) ∧
      (∀ k c, JsObject.get app.conversations k = some c →
        JsObject.get (startNewConversation app now rand nowIso).conversations k = some c) :=
  ⟨fun now' rand' h => generateId_injective now' now rand' rand h,
    fun _ _ h => JsObject.get_set_of_not_mem _ _ _ _ _ hfresh h⟩

/-- An instance of the amended C10 on a store that holds conversation `a`. -/
theorem startNewConversation_preserves_when_fresh_witness :
    generateId 1704153600000 "k3x9q2m1z" ∉ JsObject.keys sampleSnapshotApp.conversations ∧
      ((∀ now' rand', generateId now' rand' = generateId 1704153600000 "k3x9q2m1z" →
          now' = 1704153600000 ∧ rand' = "k3x9q2m1z") ∧
        (∀ k c, JsObject.get sampleSnapshotApp.conversations k = some c →
          JsObject.get (startNewConversation sampleSnapshotApp 1704153600000 "k3x9q2m1z"
            "2024-01-02T00:00:00.000Z").conversations k = some c)) :=
  ⟨by decide, startNewConversation_preserves_when_fresh sampleSnapshotApp 1704153600000
    "k3x9q2m1z" "2024-01-02T00:00:00.000Z" (by decide)⟩

/-! ## Grouping by date in `HistoryManager` -/

theorem groupLabel_cases (parseDate : String → Option Int) (tz : JsDate.TimeZone) (now : Nat)
    (conv : HistoryConversation) :
    groupLabel parseDate tz now conv = "Aujourd'hui" ∨
      groupLabel parseDate tz now conv = "Hier" ∨
      groupLabel parseDate tz now conv = "7 derniers jours" ∨
      groupLabel parseDate tz now conv = "30 derniers jours" ∨
      groupLabel parseDate tz now conv = "Plus ancien" := by
  unfold groupLabel
  simp only []
  split_ifs <;> simp

theorem pushToGroup_groupsOf (b₀ b₁ b₂ b₃ b₄ : List HistoryConversation)
    (conv : HistoryConversation) :
    pushToGroup (groupsOf b₀ b₁ b₂ b₃ b₄) "Aujourd'hui" conv =
        groupsOf (b₀ ++ [conv]) b₁ b₂ b₃ b₄ ∧
      pushToGroup (groupsOf b₀ b₁ b₂ b₃ b₄) "Hier" conv =
        groupsOf b₀ (b₁ ++ [conv]) b₂ b₃ b₄ ∧
      pushToGroup (groupsOf b₀ b₁ b₂ b₃ b₄) "7 derniers jours" conv =
        groupsOf b₀ b₁ (b₂ ++ [conv]) b₃ b₄ ∧
      pushToGroup (groupsOf b₀ b₁ b₂ b₃ b₄) "30 derniers jours" conv =
        groupsOf b₀ b₁ b₂ (b₃ ++ [conv]) b₄ ∧
      pushToGroup (groupsOf b₀ b₁ b₂ b₃ b₄) "Plus ancien" conv =
        groupsOf b₀ b₁ b₂ b₃ (b₄ ++ [conv]) :=
  ⟨rfl, rfl, rfl, rfl, rfl⟩

theorem foldl_pushToGroup (label : HistoryConversation → String)
    (hlabel : ∀ conv, label conv = "Aujourd'hui" ∨ label conv = "Hier" ∨
      label conv = "7 derniers jours" ∨ label conv = "30 derniers jours" ∨
      label conv = "Plus ancien")
    (convs : List HistoryConversation) : ∀ b₀ b₁ b₂ b₃ b₄ : List HistoryConversation,
    convs.foldl (fun g conv => pushToGroup g (label conv) conv) (groupsOf b₀ b₁ b₂ b₃ b₄) =
      groupsOf (b₀ ++ convs.filter (fun c => decide (label c = "Aujourd'hui")))
        (b₁ ++ convs.filter (fun c => decide (label c = "Hier")))
        (b₂ ++ convs.filter (fun c => decide (label c = "7 derniers jours")))
        (b₃ ++ convs.filter (fun c => decide (label c = "30 derniers jours")))
        (b₄ ++ convs.filter (fun c => decide (label c = "Plus ancien"))) := by
  induction convs with
  | nil => intro b₀ b₁ b₂ b₃ b₄; simp
  | cons conv rest ih =>
    intro b₀ b₁ b₂ b₃ b₄
    have hp := pushToGroup_groupsOf b₀ b₁ b₂ b₃ b₄ conv
    rw [List.foldl_cons]
    rcases hlabel conv with h | h | h | h | h
    · rw [h, hp.1, ih]
      simp [List.filter_cons, h]
    · rw [h, hp.2.1, ih]
      simp [List.filter_cons, h]
    · rw [h, hp.2.2.1, ih]
      simp [List.filter_cons, h]
    · rw [h, hp.2.2.2.1, ih]
      simp [List.filter_cons, h]
    · rw [h, hp.2.2.2.2, ih]
      simp [List.filter_cons, h]

theorem deleteEmpty_groupsOf (b₀ b₁ b₂ b₃ b₄ : List HistoryConversation) :
    (JsObject.keys (groupsOf b₀ b₁ b₂ b₃ b₄)).foldl
        (fun g key =>
          match JsObject.get g key with
          | some convs => if convs.length = 0 then JsObject.delete g key else g
          | none => g)
        (groupsOf b₀ b₁ b₂ b₃ b₄) =
      (groupsOf b₀ b₁ b₂ b₃ b₄).filter (fun p => decide (p.2 ≠ [])) := by
  cases b₀ <;> cases b₁ <;> cases b₂ <;> cases b₃ <;> cases b₄ <;> rfl

theorem groupByDate_eq (parseDate : String → Option Int) (tz : JsDate.TimeZone) (now : Nat)
    (convs : List HistoryConversation) :
    groupByDate parseDate tz now convs =
      (groupsOf
        (convs.filter (fun c => decide (groupLabel parseDate tz now c = "Aujourd'hui")))
        (convs.filter (fun c => decide (groupLabel parseDate tz now c = "Hier")))
        (convs.filter (fun c => decide (groupLabel parseDate tz now c = "7 derniers jours")))
        (convs.filter (fun c => decide (groupLabel parseDate tz now c = "30 derniers jours")))
        (convs.filter (fun c => decide (groupLabel parseDate tz now c = "Plus ancien")))).filter
        (fun p => decide (p.2 ≠ [])) := by
  have h := foldl_pushToGroup (groupLabel parseDate tz now) (groupLabel_cases parseDate tz now)
    convs [] [] [] [] []
  simp only [List.nil_append] at h
  unfold groupByDate
  simp only []
  rw [show emptyGroups = groupsOf [] [] [] [] [] from rfl, h]
  exact deleteEmpty_groupsOf _ _ _ _ _

theorem count_filter_eq {α : Type} [DecidableEq α] (p : α → Bool) (a : α) (l : List α) :
    (l.filter p).count a = if p a = true then l.count a else 0 := by
  split
  · next h => exact List.count_filter h
  · next h =>
    rw [List.count_eq_zero]
    intro hm
    exact h (List.mem_filter.1 hm).2

theorem flatten_filter_nonempty (g : JsObject (List HistoryConversation)) :
    ((g.filter (fun p => decide (p.2 ≠ []))).map Prod.snd).flatten =
      (g.map Prod.snd).flatten := by
  induction g with
  | nil => rfl
  | cons p rest ih =>
    by_cases h : p.2 = []
    · rw [List.filter_cons_of_neg (by simpa using h)]
      simp only [List.map_cons, List.flatten_cons, ih, h, List.nil_append]
    · rw [List.filter_cons_of_pos (by simpa using h)]
      simp only [List.map_cons, List.flatten_cons, ih]

theorem mem_groupByDate (parseDate : String → Option Int) (tz : JsDate.TimeZone) (now : Nat)
    (convs : List HistoryConversation) (b : String × List HistoryConversation)
    (hb : b ∈ groupByDate parseDate tz now convs) :
    b.2 ≠ [] ∧
      b.2 = convs.filter (fun c => decide (groupLabel parseDate tz now c = b.1)) := by
  rw [groupByDate_eq, List.mem_filter] at hb
  refine ⟨by simpa using hb.2, ?_⟩
  have hm := hb.1
  simp only [groupsOf, List.mem_cons, List.mem_singleton, List.not_mem_nil, or_false] at hm
  rcases hm with rfl | rfl | rfl | rfl | rfl <;> rfl

/-- C2: the groups returned by `groupByDate` partition the input: put one after the other they
are a rearrangement of the input list (every conversation is kept with its multiplicity and
nothing else appears), no conversation lies in two different groups, group labels are not
repeated, and no returned group is empty. -/
theorem groupByDate_partition (parseDate : String → Option Int) (tz : JsDate.TimeZone)
    (now : Nat) (convs : List HistoryConversation) :
    (((groupByDate parseDate tz now convs).map Prod.snd).flatten).Perm convs ∧
      (∀ c, ∀ b₁ ∈ groupByDate parseDate tz now convs,
        ∀ b₂ ∈ groupByDate parseDate tz now convs, c ∈ b₁.2 → c ∈ b₂.2 → b₁ = b₂) ∧
      (JsObject.keys (groupByDate parseDate tz now convs)).Nodup ∧
      (∀ b ∈ groupByDate parseDate tz now convs, b.2 ≠ []) := by
  refine ⟨?_, ?_, ?_, ?_⟩
  · rw [groupByDate_eq, flatten_filter_nonempty, List.perm_iff_count]
    intro c
    simp only [groupsOf, List.map_cons, List.map_nil, List.flatten_cons, List.flatten_nil,
      List.append_nil, List.count_append, count_filter_eq]
    rcases groupLabel_cases parseDate tz now c with h | h | h | h | h <;> simp [h]
  · intro c b₁ hb₁ b₂ hb₂ h₁ h₂
    have e₁ := (mem_groupByDate parseDate tz now convs b₁ hb₁).2
    have e₂ := (mem_groupByDate parseDate tz now convs b₂ hb₂).2
    rw [e₁] at h₁
    rw [e₂] at h₂
    have l₁ : groupLabel parseDate tz now c = b₁.1 := by simpa using (List.mem_filter.1 h₁).2
    have l₂ : groupLabel parseDate tz now c = b₂.1 := by simpa using (List.mem_filter.1 h₂).2
    have hk : b₁.1 = b₂.1 := l₁.symm.trans l₂
    exact Prod.ext hk (by rw [e₁, e₂, hk])
  · rw [groupByDate_eq]
    unfold JsObject.keys
    refine List.Nodup.sublist (List.Sublist.map _ (List.filter_sublist _)) ?_
    simp [groupsOf]
  · exact fun b hb => (mem_groupByDate parseDate tz now convs b hb).1

/-! ## The calendar -/

namespace JsDate

theorem dayFromYear_succ (y : Int) : dayFromYear (y + 1) = dayFromYear y + 365 + inLeapYear y := by
  unfold dayFromYear inLeapYear
  split_ifs <;> omega

/-- The year computed by `yearFromDay` is the one whose days include `z`. -/
theorem yearFromDay_spec (z : Int) :
    dayFromYear (yearFromDay z) ≤ z ∧ z < dayFromYear (yearFromDay z + 1) := by
  unfold yearFromDay
  simp only []
  split_ifs with h₁ h₂
  · refine ⟨h₁, ?_⟩
    unfold dayFromYear
    omega
  · exact ⟨h₂, by omega⟩
  · refine ⟨?_, by simpa using (not_le.1 h₂)⟩
    unfold dayFromYear
    omega

theorem inLeapYear_cases (y : Int) : inLeapYear y = 0 ∨ inLeapYear y = 1 := by
  unfold inLeapYear
  split_ifs <;> simp

theorem monthFromDayWithinYear_range (leap d : Int) :
    0 ≤ monthFromDayWithinYear leap d ∧ monthFromDayWithinYear leap d ≤ 11 := by
  suffices hm : ∀ m, monthFromDayWithinYear leap d = m → 0 ≤ m ∧ m ≤ 11 from hm _ rfl
  intro m h
  unfold monthFromDayWithinYear at h
  by_cases h0 : d < 31
  · rw [if_pos h0] at h
    omega
  rw [if_neg h0] at h
  by_cases h1 : d < 59 + leap
  · rw [if_pos h1] at h
    omega
  rw [if_neg h1] at h
  by_cases h2 : d < 90 + leap
  · rw [if_pos h2] at h
    omega
  rw [if_neg h2] at h
  by_cases h3 : d < 120 + leap
  · rw [if_pos h3] at h
    omega
  rw [if_neg h3] at h
  by_cases h4 : d < 151 + leap
  · rw [if_pos h4] at h
    omega
  rw [if_neg h4] at h
  by_cases h5 : d < 181 + leap
  · rw [if_pos h5] at h
    omega
  rw [if_neg h5] at h
  by_cases h6 : d < 212 + leap
  · rw [if_pos h6] at h
    omega
  rw [if_neg h6] at h
  by_cases h7 : d < 243 + leap
  · rw [if_pos h7] at h
    omega
  rw [if_neg h7] at h
  by_cases h8 : d < 273 + leap
  · rw [if_pos h8] at h
    omega
  rw [if_neg h8] at h
  by_cases h9 : d < 304 + leap
  · rw [if_pos h9] at h
    omega
  rw [if_neg h9] at h
  by_cases h10 : d < 334 + leap
  · rw [if_pos h10] at h
    omega
  rw [if_neg h10] at h
  omega

theorem monthFromTime_range (t : Int) : 0 ≤ monthFromTime t ∧ monthFromTime t ≤ 11 :=
  monthFromDayWithinYear_range _ _

theorem monthStart_range (leap d : Int) (h₀ : 0 ≤ d) (h₁ : d < 365 + leap) :
    1 ≤ d - monthStart leap (monthFromDayWithinYear leap d) + 1 ∧
      d - monthStart leap (monthFromDayWithinYear leap d) + 1 ≤
        daysInMonth leap (monthFromDayWithinYear leap d) := by
  suffices hm : ∀ m, monthFromDayWithinYear leap d = m →
      1 ≤ d - monthStart leap m + 1 ∧ d - monthStart leap m + 1 ≤ daysInMonth leap m from
    hm _ rfl
  intro m h
  unfold monthFromDayWithinYear at h
  by_cases h0 : d < 31
  · rw [if_pos h0] at h
    subst h
    simp only [monthStart, daysInMonth]
    norm_num
    omega
  rw [if_neg h0] at h
  by_cases h1 : d < 59 + leap
  · rw [if_pos h1] at h
    subst h
    simp only [monthStart, daysInMonth]
    norm_num
    omega
  rw [if_neg h1] at h
  by_cases h2 : d < 90 + leap
  · rw [if_pos h2] at h
    subst h
    simp only [monthStart, daysInMonth]
    norm_num
    omega
  rw [if_neg h2] at h
  by_cases h3 : d < 120 + leap
  · rw [if_pos h3] at h
    subst h
    simp only [monthStart, daysInMonth]
    norm_num
    omega
  rw [if_neg h3] at h
  by_cases h4 : d < 151 + leap
  · rw [if_pos h4] at h
    subst h
    simp only [monthStart, daysInMonth]
    norm_num
    omega
  rw [if_neg h4] at h
  by_cases h5 : d < 181 + leap
  · rw [if_pos h5] at h
    subst h
    simp only [monthStart, daysInMonth]
    norm_num
    omega
  rw [if_neg h5] at h
  by_cases h6 : d < 212 + leap
  · rw [if_pos h6] at h
    subst h
    simp only [monthStart, daysInMonth]
    norm_num
    omega
  rw [if_neg h6] at h
  by_cases h7 : d < 243 + leap
  · rw [if_pos h7] at h
    subst h
    simp only [monthStart, daysInMonth]
    norm_num
    omega
  rw [if_neg h7] at h
  by_cases h8 : d < 273 + leap
  · rw [if_pos h8] at h
    subst h
    simp only [monthStart, daysInMonth]
    norm_num
    omega
  rw [if_neg h8] at h
  by_cases h9 : d < 304 + leap
  · rw [if_pos h9] at h
    subst h
    simp only [monthStart, daysInMonth]
    norm_num
    omega
  rw [if_neg h9] at h
  by_cases h10 : d < 334 + leap
  · rw [if_pos h10] at h
    subst h
    simp only [monthStart, daysInMonth]
    norm_num
    omega
  rw [if_neg h10] at h
  subst h
  simp only [monthStart, daysInMonth]
  norm_num
  omega

/-- The day of the month lies between 1 and the length of the month. -/
theorem dateFromTime_range (t : Int) :
    1 ≤ dateFromTime t ∧
      dateFromTime t ≤ daysInMonth (inLeapYear (yearFromTime t)) (monthFromTime t) := by
  have hy := yearFromDay_spec (day t)
  rw [dayFromYear_succ] at hy
  exact monthStart_range _ _
    (by unfold dayWithinYear yearFromTime; omega) (by unfold dayWithinYear yearFromTime; omega)

theorem monthStart_sub (leap m : Int) (h₁ : 1 ≤ m) (h₂ : m ≤ 11) :
    monthStart leap m - monthStart leap (m - 1) = daysInMonth leap (m - 1) := by
  have hcases : m = 1 ∨ m = 2 ∨ m = 3 ∨ m = 4 ∨ m = 5 ∨ m = 6 ∨ m = 7 ∨ m = 8 ∨ m = 9 ∨
      m = 10 ∨ m = 11 := by omega
  rcases hcases with rfl | rfl | rfl | rfl | rfl | rfl | rfl | rfl | rfl | rfl | rfl
  all_goals simp only [monthStart, daysInMonth]
  all_goals norm_num
  all_goals omega

theorem makeDay_of_time (t date : Int) :
    makeDay (yearFromTime t) (monthFromTime t) date = day t - dateFromTime t + date := by
  have hm := monthFromTime_range t
  have h₁ : monthFromTime t / 12 = 0 := by omega
  have h₂ : monthFromTime t % 12 = monthFromTime t := by omega
  unfold makeDay
  simp only [h₁, h₂, add_zero]
  unfold dateFromTime dayWithinYear
  omega

theorem makeDay_previous_month (t : Int) :
    makeDay (yearFromTime t) (monthFromTime t - 1) (dateFromTime t) =
      day t - daysInMonth (inLeapYear (yearFromTime t)) ((monthFromTime t + 11) % 12) := by
  have hm := monthFromTime_range t
  have hd : dateFromTime t = dayWithinYear t -
      monthStart (inLeapYear (yearFromTime t)) (monthFromTime t) + 1 := rfl
  have hw : dayWithinYear t = day t - dayFromYear (yearFromTime t) := rfl
  by_cases h0 : monthFromTime t = 0
  · have hs := dayFromYear_succ (yearFromTime t - 1)
    rw [sub_add_cancel] at hs
    have h₁ : (monthFromTime t - 1) / 12 = -1 := by omega
    have h₂ : (monthFromTime t - 1) % 12 = 11 := by omega
    have h₃ : (monthFromTime t + 11) % 12 = 11 := by omega
    have e₁ : monthStart (inLeapYear (yearFromTime t)) 0 = 0 := by simp [monthStart]
    have e₂ : monthStart (inLeapYear (yearFromTime t - 1)) 11 =
        334 + inLeapYear (yearFromTime t - 1) := by simp [monthStart]
    have e₃ : daysInMonth (inLeapYear (yearFromTime t)) 11 = 31 := by simp [daysInMonth]
    rw [h0] at hd
    unfold makeDay
    simp only [h₁, h₂, h₃]
    rw [show yearFromTime t + -1 = yearFromTime t - 1 from rfl, e₂, e₃]
    omega
  · have h₁ : (monthFromTime t - 1) / 12 = 0 := by omega
    have h₂ : (monthFromTime t - 1) % 12 = monthFromTime t - 1 := by omega
    have h₃ : (monthFromTime t + 11) % 12 = monthFromTime t - 1 := by omega
    have hsub := monthStart_sub (inLeapYear (yearFromTime t)) (monthFromTime t) (by omega) hm.2
    unfold makeDay
    simp only [h₁, h₂, h₃, add_zero]
    omega

theorem yearFromDay_ge (z : Int) (hz : -1 ≤ z) : 1968 ≤ yearFromDay z := by
  unfold yearFromDay
  simp only []
  split_ifs <;> omega

theorem day_mul (z : Int) : day (z * msPerDay) = z ∧ timeWithinDay (z * msPerDay) = 0 := by
  unfold day timeWithinDay msPerDay
  omega

end JsDate

/-! ## The cutoffs of `groupByDate` -/

/-- The cutoff `today` of `groupByDate` is the local midnight that starts the day of `now`. -/
theorem cutoffs_today (tz : JsDate.TimeZone) (now : Nat) :
    JsDate.ofYearMonthDate tz (JsDate.getFullYear tz now) (JsDate.getMonth tz now)
      (JsDate.getDate tz now) = startOfLocalDay tz now 0 := by
  have hb := tz.bounded now
  have hday : -1 ≤ JsDate.day (JsDate.localTime tz now) := by
    unfold JsDate.day JsDate.localTime JsDate.msPerDay
    omega
  have hyear := JsDate.yearFromDay_ge _ hday
  have hfull : JsDate.makeFullYear (JsDate.yearFromTime (JsDate.localTime tz now)) =
      JsDate.yearFromTime (JsDate.localTime tz now) := by
    unfold JsDate.makeFullYear JsDate.yearFromTime
    rw [if_neg (by omega)]
  unfold JsDate.ofYearMonthDate JsDate.getFullYear JsDate.getMonth JsDate.getDate
    startOfLocalDay
  rw [hfull, JsDate.makeDay_of_time]
  congr 1
  unfold JsDate.makeDate JsDate.msPerDay
  omega

/-- The four cutoffs of `groupByDate`, when the local midnight that starts the day of `now`
exists: that midnight, the local midnights one day and seven days before, and the local midnight
before it by the length of the preceding calendar month. -/
theorem cutoffs_eq (tz : JsDate.TimeZone) (now : Nat) (hmid : midnightExists tz now) :
    cutoffs tz now =
      (startOfLocalDay tz now 0, startOfLocalDay tz now 1, startOfLocalDay tz now 7,
        startOfLocalDay tz now (previousMonthLength tz now)) := by
  have hlocal : JsDate.localTime tz (startOfLocalDay tz now 0) =
      JsDate.day (JsDate.localTime tz now) * JsDate.msPerDay := hmid
  have hd := JsDate.day_mul (JsDate.day (JsDate.localTime tz now))
  have hsame : JsDate.yearFromTime (JsDate.day (JsDate.localTime tz now) * JsDate.msPerDay) =
        JsDate.yearFromTime (JsDate.localTime tz now) ∧
      JsDate.monthFromTime (JsDate.day (JsDate.localTime tz now) * JsDate.msPerDay) =
        JsDate.monthFromTime (JsDate.localTime tz now) := by
    unfold JsDate.monthFromTime JsDate.dayWithinYear JsDate.yearFromTime
    rw [hd.1]
    exact ⟨rfl, rfl⟩
  have hset : ∀ k : Int, JsDate.setDate tz (startOfLocalDay tz now 0)
      (JsDate.getDate tz (startOfLocalDay tz now 0) - k) = startOfLocalDay tz now k := by
    intro k
    unfold JsDate.setDate JsDate.getDate
    simp only [hlocal]
    rw [JsDate.makeDay_of_time, hd.1, hd.2]
    show JsDate.utc tz _ = JsDate.utc tz _
    congr 1
    unfold JsDate.makeDate JsDate.msPerDay
    omega
  have hmonth : JsDate.setMonth tz (startOfLocalDay tz now 0)
      (JsDate.getMonth tz (startOfLocalDay tz now 0) - 1) =
      startOfLocalDay tz now (previousMonthLength tz now) := by
    unfold previousMonthLength JsDate.setMonth JsDate.getMonth JsDate.getFullYear
    simp only [hlocal]
    rw [JsDate.makeDay_previous_month, hd.1, hd.2, hsame.1, hsame.2]
    show JsDate.utc tz _ = JsDate.utc tz _
    congr 1
    unfold JsDate.makeDate JsDate.msPerDay
    generalize daysInMonth _ _ = len
    omega
  unfold cutoffs
  simp only [cutoffs_today]
  rw [hset 1, hset 7, hmonth]

/-- A local midnight is not after the local midnight of a later day. -/
theorem startOfLocalDay_mono (tz : JsDate.TimeZone) (t k : Int) (n : Nat) :
    startOfLocalDay tz t (k + n) ≤ startOfLocalDay tz t k := by
  induction n with
  | zero => simp
  | succ n ih =>
    refine le_trans ?_ ih
    have hs := tz.step ((JsDate.day (JsDate.localTime tz t) - (k + n)) * JsDate.msPerDay)
    unfold startOfLocalDay JsDate.utc
    have he : (JsDate.day (JsDate.localTime tz t) - (k + ((n + 1 : Nat) : Int))) *
        JsDate.msPerDay =
        (JsDate.day (JsDate.localTime tz t) - (k + n)) * JsDate.msPerDay - 86400000 := by
      unfold JsDate.msPerDay
      push_cast
      ring
    rw [he]
    omega

theorem bucket_filter_groupsOf (b₀ b₁ b₂ b₃ b₄ : List HistoryConversation) :
    bucket ((groupsOf b₀ b₁ b₂ b₃ b₄).filter (fun p => decide (p.2 ≠ []))) "Aujourd'hui" = b₀ ∧
      bucket ((groupsOf b₀ b₁ b₂ b₃ b₄).filter (fun p => decide (p.2 ≠ []))) "Hier" = b₁ ∧
      bucket ((groupsOf b₀ b₁ b₂ b₃ b₄).filter (fun p => decide (p.2 ≠ [])))
        "7 derniers jours" = b₂ ∧
      bucket ((groupsOf b₀ b₁ b₂ b₃ b₄).filter (fun p => decide (p.2 ≠ [])))
        "30 derniers jours" = b₃ ∧
      bucket ((groupsOf b₀ b₁ b₂ b₃ b₄).filter (fun p => decide (p.2 ≠ []))) "Plus ancien" =
        b₄ := by
  cases b₀ <;> cases b₁ <;> cases b₂ <;> cases b₃ <;> cases b₄ <;>
    exact ⟨rfl, rfl, rfl, rfl, rfl⟩

theorem mem_bucket_groupByDate (parseDate : String → Option Int) (tz : JsDate.TimeZone)
    (now : Nat) (convs : List HistoryConversation) (conv : HistoryConversation)
    (label : String)
    (hlabel : label = "Aujourd'hui" ∨ label = "Hier" ∨ label = "7 derniers jours" ∨
      label = "30 derniers jours" ∨ label = "Plus ancien") :
    conv ∈ bucket (groupByDate parseDate tz now convs) label ↔
      conv ∈ convs ∧ groupLabel parseDate tz now conv = label := by
  rw [groupByDate_eq]
  have hb := bucket_filter_groupsOf
    (convs.filter (fun c => decide (groupLabel parseDate tz now c = "Aujourd'hui")))
    (convs.filter (fun c => decide (groupLabel parseDate tz now c = "Hier")))
    (convs.filter (fun c => decide (groupLabel parseDate tz now c = "7 derniers jours")))
    (convs.filter (fun c => decide (groupLabel parseDate tz now c = "30 derniers jours")))
    (convs.filter (fun c => decide (groupLabel parseDate tz now c = "Plus ancien")))
  rcases hlabel with rfl | rfl | rfl | rfl | rfl
  · rw [hb.1, List.mem_filter, decide_eq_true_eq]
  · rw [hb.2.1, List.mem_filter, decide_eq_true_eq]
  · rw [hb.2.2.1, List.mem_filter, decide_eq_true_eq]
  · rw [hb.2.2.2.1, List.mem_filter, decide_eq_true_eq]
  · rw [hb.2.2.2.2, List.mem_filter, decide_eq_true_eq]

theorem groupLabel_of_valid (parseDate : String → Option Int) (tz : JsDate.TimeZone)
    (now : Nat) (conv : HistoryConversation) (t : Int) (hmid : midnightExists tz now)
    (hvalid : JsDate.ofValue parseDate conv.updated_at = some t) :
    (groupLabel parseDate tz now conv = "Aujourd'hui" ↔ startOfLocalDay tz now 0 ≤ t) ∧
      (groupLabel parseDate tz now conv = "Hier" ↔
        t < startOfLocalDay tz now 0 ∧ startOfLocalDay tz now 1 ≤ t) ∧
      (groupLabel parseDate tz now conv = "7 derniers jours" ↔
        t < startOfLocalDay tz now 1 ∧ startOfLocalDay tz now 7 ≤ t) ∧
      (groupLabel parseDate tz now conv = "30 derniers jours" ↔
        t < startOfLocalDay tz now 7 ∧
          startOfLocalDay tz now (previousMonthLength tz now) ≤ t) ∧
      (groupLabel parseDate tz now conv = "Plus ancien" ↔
        t < startOfLocalDay tz now 7 ∧
          t < startOfLocalDay tz now (previousMonthLength tz now)) := by
  have h₁₀ : startOfLocalDay tz now 1 ≤ startOfLocalDay tz now 0 := by
    have := startOfLocalDay_mono tz now 0 1
    simpa using this
  have h₇₁ : startOfLocalDay tz now 7 ≤ startOfLocalDay tz now 1 := by
    have := startOfLocalDay_mono tz now 1 6
    norm_num at this
    exact this
  unfold groupLabel
  simp only [cutoffs_eq tz now hmid, hvalid, JsDate.ge, decide_eq_true_eq]
  generalize startOfLocalDay tz now 0 = S₀ at *
  generalize startOfLocalDay tz now 1 = S₁ at *
  generalize startOfLocalDay tz now 7 = S₇ at *
  generalize startOfLocalDay tz now (previousMonthLength tz now) = P
  split_ifs with h₁ h₂ h₃ h₄
  · simp
    omega
  · simp
    omega
  · simp
    omega
  · simp
    omega
  · simp
    omega

theorem previousMonthLength_range (tz : JsDate.TimeZone) (t : Int) :
    28 ≤ previousMonthLength tz t ∧ previousMonthLength tz t ≤ 31 := by
  unfold previousMonthLength daysInMonth
  rcases JsDate.inLeapYear_cases (JsDate.getFullYear tz t) with h | h <;> rw [h] <;>
    split_ifs <;> omega

/-- C6 as stated fails on a host whose clock skips the midnight that starts the day of `now`: in
Sao Paulo on 4 November 2018 the day starts at 01:00 (03:00 UTC), `setDate` keeps that time of
day, so that `yesterday` is 3 November at 01:00 (04:00 UTC), and a conversation updated on
3 November at 00:30 local time (03:30 UTC), which is before the start of the day of `now` and
after the start of the previous day (03:00 UTC), is grouped under `7 derniers jours`. -/
theorem groupByDate_skipped_midnight_counterexample :
    cutoffs sampleSaoPaulo sampleSaoPauloNow =
        (1541300400000, 1541217600000, 1540699200000, 1538625600000) ∧
      JsDate.ofValue sampleParseDate sampleSaoPauloNight.updated_at = some 1541215800000 ∧
      (1541215800000 : Int) < startOfLocalDay sampleSaoPaulo sampleSaoPauloNow 0 ∧
      startOfLocalDay sampleSaoPaulo sampleSaoPauloNow 1 ≤ 1541215800000 ∧
      sampleSaoPauloNight ∉ bucket
        (groupByDate sampleParseDate sampleSaoPaulo sampleSaoPauloNow [sampleSaoPauloNight])
        "Hier" ∧
      sampleSaoPauloNight ∈ bucket
        (groupByDate sampleParseDate sampleSaoPaulo sampleSaoPauloNow [sampleSaoPauloNight])
        "7 derniers jours" := by
  decide

/-- C6, amended: when the local midnight that starts the day of `now` exists on the host's clock,
a conversation of the input whose date is valid, with time value `t`, lies in the group
`Aujourd'hui` exactly when `t` is at or after that midnight, in `Hier` exactly when `t` is before
it and at or after the local midnight of the previous day, and in `7 derniers jours` exactly when
`t` is before the local midnight of the previous day and at or after the local midnight of the
day seven days before the day of `now`. -/
theorem groupByDate_recent_groups (parseDate : String → Option Int) (tz : JsDate.TimeZone)
    (now : Nat) (convs : List HistoryConversation) (conv : HistoryConversation) (t : Int)
    (hmid : midnightExists tz now) (hmem : conv ∈ convs)
    (hvalid : JsDate.ofValue parseDate conv.updated_at = some t) :
    (conv ∈ bucket (groupByDate parseDate tz now convs) "Aujourd'hui" ↔
        startOfLocalDay tz now 0 ≤ t) ∧
      (conv ∈ bucket (groupByDate parseDate tz now convs) "Hier" ↔
        t < startOfLocalDay tz now 0 ∧ startOfLocalDay tz now 1 ≤ t) ∧
      (conv ∈ bucket (groupByDate parseDate tz now convs) "7 derniers jours" ↔
        t < startOfLocalDay tz now 1 ∧ startOfLocalDay tz now 7 ≤ t) := by
  have hl := groupLabel_of_valid parseDate tz now conv t hmid hvalid
  refine ⟨?_, ?_, ?_⟩
  · rw [mem_bucket_groupByDate _ _ _ _ _ _ (Or.inl rfl), ← hl.1]
    exact and_iff_right hmem
  · rw [mem_bucket_groupByDate _ _ _ _ _ _ (Or.inr (Or.inl rfl)), ← hl.2.1]
    exact and_iff_right hmem
  · rw [mem_bucket_groupByDate _ _ _ _ _ _ (Or.inr (Or.inr (Or.inl rfl))), ← hl.2.2.1]
    exact and_iff_right hmem

/-- The example of Paris on 1 April 2024, the day after the clock went forward: the day of `now`
starts at 22:00 UTC, the previous day at 23:00 UTC, and a conversation updated on 30 March at
22:30 UTC is grouped under `7 derniers jours`. -/
theorem groupByDate_paris_example :
    startOfLocalDay sampleParis sampleParisNow 0 = 1711922400000 ∧
      startOfLocalDay sampleParis sampleParisNow 1 = 1711839600000 ∧
      groupByDate sampleParseDate sampleParis sampleParisNow [sampleParisEve] =
        [("7 derniers jours", [sampleParisEve])] := by
  decide

/-- An instance of the amended C6 in Paris on the day after the clock went forward. -/
theorem groupByDate_recent_groups_witness :
    midnightExists sampleParis sampleParisNow ∧
      sampleParisEve ∈ [sampleParisFebruary, sampleParisEve] ∧
      JsDate.ofValue sampleParseDate sampleParisEve.updated_at = some 1711837800000 ∧
      ((sampleParisEve ∈ bucket
            (groupByDate sampleParseDate sampleParis sampleParisNow
              [sampleParisFebruary, sampleParisEve])
            "Aujourd'hui" ↔
          startOfLocalDay sampleParis sampleParisNow 0 ≤ 1711837800000) ∧
        (sampleParisEve ∈ bucket
            (groupByDate sampleParseDate sampleParis sampleParisNow
              [sampleParisFebruary, sampleParisEve])
            "Hier" ↔
          1711837800000 < startOfLocalDay sampleParis sampleParisNow 0 ∧
            startOfLocalDay sampleParis sampleParisNow 1 ≤ 1711837800000) ∧
        (sampleParisEve ∈ bucket
            (groupByDate sampleParseDate sampleParis sampleParisNow
              [sampleParisFebruary, sampleParisEve])
            "7 derniers jours" ↔
          1711837800000 < startOfLocalDay sampleParis sampleParisNow 1 ∧
            startOfLocalDay sampleParis sampleParisNow 7 ≤ 1711837800000)) :=
  ⟨by unfold midnightExists; decide, by decide, by decide,
    groupByDate_recent_groups sampleParseDate sampleParis sampleParisNow
      [sampleParisFebruary, sampleParisEve] sampleParisEve 1711837800000
      (by unfold midnightExists; decide) (by decide) (by decide)⟩

/-- C7 as stated fails: on 2024-03-15 a conversation updated on 2024-02-14 at noon is before the
seven-day cutoff and after the start of the day thirty days before, yet it is grouped under
`Plus ancien`, because the cutoff is one calendar month (here 29 days) before. -/
theorem groupByDate_thirty_days_counterexample :
    JsDate.ofValue sampleParseDate sampleMonthOld.updated_at = some 1707912000000 ∧
      (1707912000000 : Int) < startOfLocalDay sampleUtc sampleNow 7 ∧
      startOfLocalDay sampleUtc sampleNow 30 ≤ 1707912000000 ∧
      sampleMonthOld ∉ bucket
        (groupByDate sampleParseDate sampleUtc sampleNow [sampleMonthOld, sampleRecent])
        "30 derniers jours" ∧
      sampleMonthOld ∈ bucket
        (groupByDate sampleParseDate sampleUtc sampleNow [sampleMonthOld, sampleRecent])
        "Plus ancien" := by
  decide

/-- C7, amended: when the local midnight that starts the day of `now` exists on the host's clock,
a conversation of the input whose time value `t` is before the seven-day cutoff lies in the group
`30 derniers jours` exactly when `t` is at or after the local midnight of the day that precedes
the local day of `now` by the length of the calendar month before the month of `now` (28 to 31
days), and in `Plus ancien` otherwise. -/
theorem groupByDate_older_groups (parseDate : String → Option Int) (tz : JsDate.TimeZone)
    (now : Nat) (convs : List HistoryConversation) (conv : HistoryConversation) (t : Int)
    (hmid : midnightExists tz now) (hmem : conv ∈ convs)
    (hvalid : JsDate.ofValue parseDate conv.updated_at = some t)
    (hold : t < startOfLocalDay tz now 7) :
    (conv ∈ bucket (groupByDate parseDate tz now convs) "30 derniers jours" ↔
        startOfLocalDay tz now (previousMonthLength tz now) ≤ t) ∧
      (conv ∈ bucket (groupByDate parseDate tz now convs) "Plus ancien" ↔
        ¬ startOfLocalDay tz now (previousMonthLength tz now) ≤ t) ∧
      28 ≤ previousMonthLength tz now ∧ previousMonthLength tz now ≤ 31 := by
  have hl := groupLabel_of_valid parseDate tz now conv t hmid hvalid
  refine ⟨?_, ?_, previousMonthLength_range tz now⟩
  · rw [mem_bucket_groupByDate _ _ _ _ _ _ (Or.inr (Or.inr (Or.inr (Or.inl rfl)))),
      hl.2.2.2.1]
    exact ⟨fun h => h.2.2, fun h => ⟨hmem, hold, h⟩⟩
  · rw [mem_bucket_groupByDate _ _ _ _ _ _ (Or.inr (Or.inr (Or.inr (Or.inr rfl)))),
      hl.2.2.2.2]
    exact ⟨fun h => not_le.2 h.2.2, fun h => ⟨hmem, hold, not_le.1 h⟩⟩

/-- The cutoff of one month in Paris on 1 April 2024 is the local midnight of 1 March, 23:00 UTC
on 29 February, and a conversation updated half an hour before is grouped under
`Plus ancien`. -/
theorem groupByDate_paris_month_example :
    previousMonthLength sampleParis sampleParisNow = 31 ∧
      startOfLocalDay sampleParis sampleParisNow 31 = 1709247600000 ∧
      groupByDate sampleParseDate sampleParis sampleParisNow [sampleParisFebruary] =
        [("Plus ancien", [sampleParisFebruary])] := by
  decide

/-- An instance of the amended C7 in Paris on the day after the clock went forward. -/
theorem groupByDate_older_groups_witness :
    midnightExists sampleParis sampleParisNow ∧
      sampleParisFebruary ∈ [sampleParisFebruary, sampleParisEve] ∧
      JsDate.ofValue sampleParseDate sampleParisFebruary.updated_at = some 1709245800000 ∧
      (1709245800000 : Int) < startOfLocalDay sampleParis sampleParisNow 7 ∧
      ((sampleParisFebruary ∈ bucket
            (groupByDate sampleParseDate sampleParis sampleParisNow
              [sampleParisFebruary, sampleParisEve])
            "30 derniers jours" ↔
          startOfLocalDay sampleParis sampleParisNow
            (previousMonthLength sampleParis sampleParisNow) ≤ 1709245800000) ∧
        (sampleParisFebruary ∈ bucket
            (groupByDate sampleParseDate sampleParis sampleParisNow
              [sampleParisFebruary, sampleParisEve])
            "Plus ancien" ↔
          ¬ startOfLocalDay sampleParis sampleParisNow
            (previousMonthLength sampleParis sampleParisNow) ≤ 1709245800000) ∧
        28 ≤ previousMonthLength sampleParis sampleParisNow ∧
        previousMonthLength sampleParis sampleParisNow ≤ 31) :=
  ⟨by unfold midnightExists; decide, by decide, by decide, by decide,
    groupByDate_older_groups sampleParseDate sampleParis sampleParisNow
      [sampleParisFebruary, sampleParisEve] sampleParisFebruary 1709245800000
      (by unfold midnightExists; decide) (by decide) (by decide) (by decide)⟩

/-! ## Deletion, blank input, titles and the local entry -/

theorem jsTrim_of_blank (s : String) (h : ∀ c ∈ s.data, isJsWhitespace c = true) :
    jsTrim s = "" := by
  have h₁ : s.data.dropWhile isJsWhitespace = [] := List.dropWhile_eq_nil_iff.2 h
  simp [jsTrim, h₁]

/-- C11: after `deleteConversation(id)` the selection is `null` when the user confirmed, the
`DELETE` request succeeded and `id` was the selection; in every other case it is what it was; and
without confirmation no request is issued. -/
theorem deleteConversation_selection (hm : HistoryManager) (conversationId : String)
    (confirmed : Bool) (deletion : FetchResult Unit)
    (reload : FetchResult (Option (List HistoryConversation))) :
    (hm.deleteConversation conversationId confirmed deletion reload).1.currentConversationId =
        (if confirmed = true ∧ deletion = FetchResult.response true () ∧
            hm.currentConversationId = some conversationId then none
          else hm.currentConversationId) ∧
      (confirmed = false →
        (hm.deleteConversation conversationId confirmed deletion reload).2 = []) := by
  have hload : ∀ h : HistoryManager,
      (HistoryManager.loadConversations h reload).currentConversationId =
        h.currentConversationId := by
    intro h
    unfold HistoryManager.loadConversations
    split
    · rfl
    · split
      · split <;> rfl
      · rfl
  cases confirmed with
  | false => simp [HistoryManager.deleteConversation]
  | true =>
    cases deletion with
    | rejected => simp [HistoryManager.deleteConversation]
    | response ok u =>
      cases ok with
      | false => simp [HistoryManager.deleteConversation]
      | true =>
        by_cases hc : hm.currentConversationId = some conversationId
        · simp [HistoryManager.deleteConversation, hload, hc]
        · simp [HistoryManager.deleteConversation, hload, hc]

/-- C12: for an input that is empty or made of white space only, `sendMessage` returns at once:
it issues no request, leaves the store and the current conversation as they were and starts no
save, so that the local entry stays as it was; and `renameConversation` with such a new title
issues no request and changes nothing. -/
theorem blank_input_rejected (input : String)
    (hblank : ∀ c ∈ input.data, isJsWhitespace c = true) (app : ChatApp)
    (storage : Option Snapshot) (env : SendEnv) (hm : HistoryManager) (conversationId : String)
    (patch : FetchResult Unit) (reload : FetchResult (Option (List HistoryConversation))) :
    sendMessage app input env = some { app := app, requests := [], pendingSave := none } ∧
      (∀ result, sendMessage app input env = some result →
        ∀ rejects later, storageAfter result rejects later storage = storage) ∧
      hm.renameConversation conversationId (some input) patch reload = (hm, []) := by
  have ht := jsTrim_of_blank input hblank
  have hs : sendMessage app input env =
      some { app := app, requests := [], pendingSave := none } := by
    simp [sendMessage, ht]
  refine ⟨hs, ?_, ?_⟩
  · intro result hr rejects later
    rw [hs] at hr
    cases hr
    rfl
  · simp [HistoryManager.renameConversation, ht]

/-- An instance of C12 for an input of spaces and a tab. -/
theorem blank_input_rejected_witness :
    (∀ c ∈ sampleBlank.data, isJsWhitespace c = true) ∧
      (sendMessage sampleApp sampleBlank sampleOffline =
          some { app := sampleApp, requests := [], pendingSave := none } ∧
        (∀ result, sendMessage sampleApp sampleBlank sampleOffline = some result →
          ∀ rejects later, storageAfter result rejects later none = none) ∧
        sampleHistory.renameConversation "r" (some sampleBlank) FetchResult.rejected
          FetchResult.rejected = (sampleHistory, [])) :=
  ⟨by decide, blank_input_rejected sampleBlank (by decide) sampleApp none sampleOffline
    sampleHistory "r" FetchResult.rejected FetchResult.rejected⟩

/-- C13 as stated fails: for an id that is not in the store `updateConversationTitle` completes
normally and leaves the state as it was, and for an id that is in the store the title is not set
when the `PUT` request is rejected. -/
theorem updateConversationTitle_swallows_errors :
    JsObject.get sampleSnapshotApp.conversations "missing" = none ∧
      updateConversationTitle sampleSnapshotApp "missing" "Titre" false =
        Except.ok sampleSnapshotApp ∧
      JsObject.get sampleSnapshotApp.conversations "a" = some sampleStarted ∧
      updateConversationTitle sampleSnapshotApp "a" "Titre" true =
        Except.ok sampleSnapshotApp := by
  refine ⟨rfl, rfl, rfl, rfl⟩

/-- C13, amended: `updateConversationTitle` always completes normally; for an id that is not in
the store, and whenever the `PUT` request is rejected, the state is left as it was; for an id that
is in the store and a `PUT` request that is not rejected it sets the title of that record to the
given title. -/
theorem updateConversationTitle_completes (app : ChatApp) (convId title : String)
    (putRejects : Bool) :
    (∃ app1, updateConversationTitle app convId title putRejects = Except.ok app1) ∧
      (JsObject.get app.conversations convId = none →
        updateConversationTitle app convId title putRejects = Except.ok app) ∧
      (putRejects = true →
        updateConversationTitle app convId title putRejects = Except.ok app) ∧
      (∀ conv, JsObject.get app.conversations convId = some conv → putRejects = false →
        updateConversationTitle app convId title putRejects =
            Except.ok { app with
              conversations :=
                JsObject.set app.conversations convId { conv with title := some title } } ∧
          ∀ app1, updateConversationTitle app convId title putRejects = Except.ok app1 →
            (JsObject.get app1.conversations convId).map Conversation.title =
              some (some title)) := by
  refine ⟨?_, ?_, ?_, ?_⟩
  · unfold updateConversationTitle
    split
    · exact ⟨_, rfl⟩
    · exact ⟨_, rfl⟩
  · intro h
    cases putRejects <;> simp [updateConversationTitle, updateConversationTitleTry, h]
  · intro h
    simp [updateConversationTitle, updateConversationTitleTry, h]
  · intro conv h hp
    have he : updateConversationTitle app convId title putRejects =
        Except.ok { app with
          conversations :=
            JsObject.set app.conversations convId { conv with title := some title } } := by
      simp [updateConversationTitle, updateConversationTitleTry, h, hp]
    refine ⟨he, ?_⟩
    intro app1 h1
    rw [he] at h1
    cases h1
    simp [JsObject.get_set_self]

theorem putAll_eq_false_iff (rejects : Conversation → Bool) (l : List Conversation) :
    putAll rejects l = false ↔ ∃ c ∈ l, rejects c = true := by
  induction l with
  | nil => simp [putAll]
  | cons c rest ih =>
    by_cases h : rejects c = true
    · simp [putAll, h]
    · simp [putAll, h, ih]

/-- C14: the snapshot that `saveConversations` writes holds the stored conversations with at
least one message, and only those, together with the current conversation id; it is written
exactly when one of the `PUT` requests is rejected, and when every request completes the local
entry is left as it was. -/
theorem saveConversations_snapshot (app : ChatApp) (rejects : Conversation → Bool)
    (storage : Option Snapshot) :
    (saveConversations app rejects storage = storage ∨
        saveConversations app rejects storage =
          some { conversations := conversationsData app,
                 currentId := app.currentConversationId }) ∧
      ((∀ c ∈ conversationsData app, rejects c = false) →
        saveConversations app rejects storage = storage) ∧
      ((∃ c ∈ conversationsData app, rejects c = true) →
        saveConversations app rejects storage =
          some { conversations := conversationsData app,
                 currentId := app.currentConversationId }) ∧
      (∀ c, c ∈ conversationsData app ↔
        (∃ k, (k, c) ∈ app.conversations) ∧ c.messages.length > 0) := by
  have hiff := putAll_eq_false_iff rejects (conversationsData app)
  refine ⟨?_, ?_, ?_, ?_⟩
  · unfold saveConversations
    split
    · exact Or.inl rfl
    · exact Or.inr rfl
  · intro h
    have : putAll rejects (conversationsData app) = true := by
      cases hp : putAll rejects (conversationsData app) with
      | true => rfl
      | false =>
        obtain ⟨c, hc, hr⟩ := hiff.1 hp
        rw [h c hc] at hr
        cases hr
    simp [saveConversations, this]
  · intro h
    simp [saveConversations, hiff.2 h]
  · intro c
    unfold conversationsData
    rw [List.mem_filter, JsObject.mem_values]
    simp

/-- C17: for a record without title whose first message is made of blanks only,
`generateTitle` returns the empty string instead of a non-empty title. -/
theorem generateTitle_blank_first_message :
    sampleBlankFirst.title = none ∧ sampleBlankFirst.first_message = some "   " ∧
      generateTitle sampleBlankFirst = "" := by
  decide

/-! ## Escaping -/

theorem replaceAll_data (s : String) (c : Char) (r : String) :
    (replaceAll s c r).data = s.data.flatMap (fun x => if x = c then r.data else [x]) := rfl

theorem escapeSteps_char (c : Char) :
    ((if c = '&' then "&amp;".data else [c]).flatMap fun x =>
      (if x = '<' then "&lt;".data else [x]).flatMap fun x =>
        (if x = '>' then "&gt;".data else [x]).flatMap fun x =>
          (if x = Char.ofNat 34 then "&quot;".data else [x]).flatMap fun x =>
            if x = Char.ofNat 39 then "&#039;".data else [x]) = escapeCharOnce c := by
  unfold escapeCharOnce
  by_cases h₁ : c = '&'
  · subst h₁; decide
  by_cases h₂ : c = '<'
  · subst h₂; decide
  by_cases h₃ : c = '>'
  · subst h₃; decide
  by_cases h₄ : c = Char.ofNat 34
  · subst h₄; decide
  by_cases h₅ : c = Char.ofNat 39
  · subst h₅; decide
  simp [h₁, h₂, h₃, h₄, h₅]

/-- The five replacements in a row amount to replacing every special character once. -/
theorem escapeHtml_data (s : String) :
    (escapeHtml (some s)).data = s.data.flatMap escapeCharOnce := by
  by_cases hs : s = ""
  · subst hs
    rfl
  · have ht : truthy (some s) = true := by simp [truthy, hs]
    simp only [escapeHtml, ht, if_true, Option.getD_some, replaceAll_data, List.flatMap_assoc]
    congr 1
    funext c
    exact escapeSteps_char c

theorem escapeCharOnce_cases (c : Char) :
    (c ∈ htmlSpecials ∧ escapeCharOnce c ∈ htmlEntities) ∨
      (c ∉ htmlSpecials ∧ escapeCharOnce c = [c]) := by
  unfold escapeCharOnce
  by_cases h₁ : c = '&'
  · subst h₁; exact Or.inl (by decide)
  by_cases h₂ : c = '<'
  · subst h₂; exact Or.inl (by decide)
  by_cases h₃ : c = '>'
  · subst h₃; exact Or.inl (by decide)
  by_cases h₄ : c = Char.ofNat 34
  · subst h₄; exact Or.inl (by decide)
  by_cases h₅ : c = Char.ofNat 39
  · subst h₅; exact Or.inl (by decide)
  refine Or.inr ⟨?_, by simp [h₁, h₂, h₃, h₄, h₅]⟩
  simp [htmlSpecials, h₁, h₂, h₃, h₄, h₅]

theorem htmlEntities_shape (e : List Char) (he : e ∈ htmlEntities) :
    (∃ rest, e = '&' :: rest ∧ ∀ c ∈ rest, c ∉ htmlSpecials) := by
  simp only [htmlEntities, List.mem_cons, List.mem_singleton, List.not_mem_nil, or_false] at he
  rcases he with rfl | rfl | rfl | rfl | rfl <;> exact ⟨_, rfl, by decide⟩

/-- In a text built from entities and ordinary characters every `&` starts an entity. -/
theorem ampersand_starts_entity (l : List Char) :
    ∀ pre post, l.flatMap escapeCharOnce = pre ++ '&' :: post →
      ∃ e ∈ htmlEntities, e <+: '&' :: post := by
  induction l with
  | nil =>
    intro pre post h
    simp at h
  | cons c rest ih =>
    intro pre post h
    rw [List.flatMap_cons] at h
    rcases escapeCharOnce_cases c with ⟨_, he⟩ | ⟨hc, he⟩
    · obtain ⟨tl, hshape, htl⟩ := htmlEntities_shape _ he
      cases pre with
      | nil =>
        refine ⟨escapeCharOnce c, he, ?_⟩
        rw [List.nil_append] at h
        rw [← h]
        exact List.prefix_append _ _
      | cons p pre1 =>
        rw [hshape, List.cons_append, List.cons_append, List.cons.injEq] at h
        obtain ⟨_, h2⟩ := h
        rcases List.append_eq_append_iff.1 h2 with ⟨a, ha, hb⟩ | ⟨b, ha, hb⟩
        · exact ih a post hb
        · cases b with
          | nil =>
            rw [List.nil_append] at hb
            exact ih [] post hb.symm
          | cons x b1 =>
            rw [List.cons_append, List.cons.injEq] at hb
            have hx : x ∈ tl := by rw [ha]; simp
            rw [← hb.1] at hx
            exact absurd (by decide : '&' ∈ htmlSpecials) (htl _ hx)
    · rw [he] at h
      cases pre with
      | nil =>
        rw [List.nil_append, List.singleton_append, List.cons.injEq] at h
        rw [h.1] at hc
        exact absurd (by decide : '&' ∈ htmlSpecials) hc
      | cons p pre1 =>
        rw [List.singleton_append, List.cons_append, List.cons.injEq] at h
        exact ih pre1 post h.2

/-- C16: `escapeHtml(s)` is `s` with every special character replaced once by its entity; so the
result holds none of the characters `<`, `>`, double quote and apostrophe, every `&` in it is the
first character of one of the five entities, and a string without special characters is returned
as it is. -/
theorem escapeHtml_escapes (s : String) :
    (escapeHtml (some s)).data = s.data.flatMap escapeCharOnce ∧
      (∀ c ∈ (escapeHtml (some s)).data,
        c ≠ '<' ∧ c ≠ '>' ∧ c ≠ Char.ofNat 34 ∧ c ≠ Char.ofNat 39) ∧
      (∀ pre post, (escapeHtml (some s)).data = pre ++ '&' :: post →
        ∃ e ∈ htmlEntities, e <+: '&' :: post) ∧
      ((∀ c ∈ s.data, c ∉ htmlSpecials) → escapeHtml (some s) = s) := by
  refine ⟨escapeHtml_data s, ?_, ?_, ?_⟩
  · intro c hc
    rw [escapeHtml_data, List.mem_flatMap] at hc
    obtain ⟨x, _, hx⟩ := hc
    rcases escapeCharOnce_cases x with ⟨_, he⟩ | ⟨hn, he⟩
    · obtain ⟨tl, hshape, htl⟩ := htmlEntities_shape _ he
      rw [hshape] at hx
      rcases List.mem_cons.1 hx with rfl | hx'
      · decide
      · have := htl c hx'
        simp only [htmlSpecials, List.mem_cons, List.mem_singleton, List.not_mem_nil, or_false,
          not_or] at this
        exact ⟨this.2.1, this.2.2.1, this.2.2.2.1, this.2.2.2.2⟩
    · rw [he, List.mem_singleton] at hx
      subst hx
      simp only [htmlSpecials, List.mem_cons, List.mem_singleton, List.not_mem_nil, or_false,
        not_or] at hn
      exact ⟨hn.2.1, hn.2.2.1, hn.2.2.2.1, hn.2.2.2.2⟩
  · intro pre post h
    rw [escapeHtml_data] at h
    exact ampersand_starts_entity s.data pre post h
  · intro h
    apply String.ext
    rw [escapeHtml_data]
    have hid : ∀ l : List Char, (∀ c ∈ l, c ∉ htmlSpecials) → l.flatMap escapeCharOnce = l := by
      intro l
      induction l with
      | nil => intro _; rfl
      | cons c rest ih =>
        intro hl
        rw [List.flatMap_cons]
        rcases escapeCharOnce_cases c with ⟨hc, _⟩ | ⟨_, he⟩
        · exact absurd hc (hl c (List.mem_cons_self _ _))
        · rw [he, ih (fun x hx => hl x (List.mem_cons_of_mem _ hx))]
          rfl
    exact hid s.data h

/-! ## The invariant of the store and of the local entry -/

theorem JsObject.get_set {α : Type} (o : JsObject α) (k k' : String) (v : α) :
    get (set o k v) k' = if k = k' then some v else get o k' := by
  by_cases h : k = k'
  · subst h
    simp [JsObject.get_set_self]
  · simp [h, JsObject.get_set_of_ne _ _ _ _ h]

theorem JsObject.get_foldl_set_inv {α β : Type} (f : β → String) (g : β → α)
    (P : String → α → Prop) (hg : ∀ x, P (f x) (g x)) (l : List β) :
    ∀ (o : JsObject α), (∀ k c, get o k = some c → P k c) →
      ∀ k c, get (l.foldl (fun o x => set o (f x) (g x)) o) k = some c → P k c := by
  induction l with
  | nil => intro o h k c hk; exact h k c hk
  | cons x xs ih =>
    intro o h k c hk
    rw [List.foldl_cons] at hk
    refine ih (set o (f x) (g x)) ?_ k c hk
    intro k' c' h'
    rw [JsObject.get_set] at h'
    split at h'
    · next e =>
      cases h'
      rw [← e]
      exact hg x
    · exact h k' c' h'

theorem JsObject.get_foldl_set_isSome {α β : Type} (f : β → String) (g : β → α)
    (l : List β) (o : JsObject α) (k : String)
    (h : (∃ c, get o k = some c) ∨ ∃ x ∈ l, f x = k) :
    ∃ c, get (l.foldl (fun o x => set o (f x) (g x)) o) k = some c := by
  have hk : k ∈ keys (l.foldl (fun o x => set o (f x) (g x)) o) := by
    rw [JsObject.mem_keys_foldl_set]
    rcases h with ⟨c, hc⟩ | h
    · left
      by_contra hn
      rw [(JsObject.get_eq_none_iff o k).2 hn] at hc
      cases hc
    · exact Or.inr h
  cases hget : get (l.foldl (fun o x => set o (f x) (g x)) o) k with
  | none => exact absurd hk ((JsObject.get_eq_none_iff _ k).1 hget)
  | some c => exact ⟨c, rfl⟩

theorem storeInv_initial : StoreInv ChatApp.initial := by
  constructor
  · intro id h
    cases h
  · intro k c h
    simp [ChatApp.initial, JsObject.get] at h

theorem storeInv_startNewConversation (app : ChatApp) (now : Nat) (rand nowIso : String)
    (h : StoreInv app) : StoreInv (startNewConversation app now rand nowIso) := by
  constructor
  · intro id hid
    simp only [startNewConversation, Option.some.injEq] at hid
    subst hid
    exact ⟨_, JsObject.get_set_self _ _ _⟩
  · intro k c hk
    simp only [startNewConversation] at hk
    rw [JsObject.get_set] at hk
    split at hk
    · next e =>
      cases hk
      exact e
    · exact h.2 k c hk

theorem storeInv_loadConversation (app : ChatApp) (convId : String) (h : StoreInv app) :
    StoreInv (loadConversation app convId) := by
  unfold loadConversation
  split
  · exact h
  · next c hc =>
    constructor
    · intro id hid
      simp only [Option.some.injEq] at hid
      subst hid
      exact ⟨c, hc⟩
    · exact h.2

theorem storeInv_loadConversationsFromLocalStorage (app : ChatApp) (storage : Option Snapshot)
    (h : StoreInv app) (hs : SnapshotInv storage) :
    StoreInv (loadConversationsFromLocalStorage app storage) := by
  cases storage with
  | none => exact h
  | some data =>
    obtain ⟨hconv, hcur⟩ := loadConversationsFromLocalStorage_some app data
    constructor
    · intro id hid
      rw [hcur] at hid
      rw [hconv]
      obtain ⟨c, hc, hcid⟩ := hs data rfl id hid
      exact JsObject.get_foldl_set_isSome Conversation.id (fun c => c) _ _ _
        (Or.inr ⟨c, hc, hcid⟩)
    · rw [hconv]
      exact JsObject.get_foldl_set_inv Conversation.id (fun c => c) (fun k c => c.id = k)
        (fun _ => rfl) _ _ h.2

theorem storeInv_storeRemote (app : ChatApp) (nowIso : String)
    (records : List RemoteConversation) (h : StoreInv app) :
    StoreInv (storeRemote app nowIso records) := by
  have hkeyed : ∀ k c, JsObject.get (records.foldl
      (fun o conv => JsObject.set o conv.id (normalize nowIso conv)) app.conversations) k =
      some c → c.id = k :=
    JsObject.get_foldl_set_inv RemoteConversation.id (normalize nowIso) (fun k c => c.id = k)
      (fun _ => rfl) _ _ h.2
  cases records with
  | nil => exact h
  | cons first rest =>
    unfold storeRemote
    simp only []
    refine storeInv_loadConversation _ _ ⟨?_, hkeyed⟩
    intro id hid
    simp only [Option.some.injEq] at hid
    subst hid
    exact JsObject.get_foldl_set_isSome RemoteConversation.id (normalize nowIso) _ _ _
      (Or.inr ⟨first, List.mem_cons_self _ _, rfl⟩)

theorem storeInv_loadConversations (app : ChatApp) (result : FetchResult ConversationsBody)
    (nowIso : String) (storage : Option Snapshot) (h : StoreInv app)
    (hs : SnapshotInv storage) : StoreInv (loadConversations app result nowIso storage) := by
  unfold loadConversations
  cases result with
  | rejected => exact storeInv_loadConversationsFromLocalStorage app storage h hs
  | response ok body =>
    cases ok with
    | false => exact h
    | true =>
      cases body with
      | array records => exact storeInv_storeRemote app nowIso records h
      | object conversations => exact storeInv_storeRemote app nowIso _ h
      | unreadable => exact storeInv_loadConversationsFromLocalStorage app storage h hs

/-- A store with a current conversation that holds at least one message. -/
theorem pushMessage_of_current (app : ChatApp) (msg : Message) (id : String)
    (h : StoreInv app) (hcur : app.currentConversationId = some id) :
    ∃ app1, pushMessage app msg = some app1 ∧ StoreInv app1 ∧
      app1.currentConversationId = some id ∧
      ∃ c, JsObject.get app1.conversations id = some c ∧ c.messages.length > 0 := by
  obtain ⟨conv, hconv⟩ := h.1 id hcur
  have hid := h.2 id conv hconv
  refine ⟨ChatApp.mk
      (JsObject.set app.conversations id { conv with messages := conv.messages ++ [msg] })
      app.currentConversationId app.isFirstMessage,
    ?_, ⟨?_, ?_⟩, hcur, ⟨_, JsObject.get_set_self _ _ _, by simp⟩⟩
  · simp [pushMessage, propertyKey, hcur, hconv]
  · intro id' hid'
    rw [hcur] at hid'
    cases hid'
    exact ⟨_, JsObject.get_set_self _ _ _⟩
  · intro k c hk
    rw [JsObject.get_set] at hk
    split at hk
    · next e =>
      cases hk
      rw [← e]
      exact hid
    · exact h.2 k c hk

theorem updateConversationTitle_inv (app : ChatApp) (convId title : String)
    (putRejects : Bool) (h : StoreInv app) :
    ∃ app1, updateConversationTitle app convId title putRejects = Except.ok app1 ∧
      StoreInv app1 ∧ app1.currentConversationId = app.currentConversationId := by
  cases putRejects with
  | true => exact ⟨app, by simp [updateConversationTitle, updateConversationTitleTry], h, rfl⟩
  | false =>
    cases hget : JsObject.get app.conversations convId with
    | none =>
      exact ⟨app, by simp [updateConversationTitle, updateConversationTitleTry, hget], h, rfl⟩
    | some conv =>
      refine ⟨ChatApp.mk
          (JsObject.set app.conversations convId { conv with title := some title })
          app.currentConversationId app.isFirstMessage,
        by simp [updateConversationTitle, updateConversationTitleTry, hget], ⟨?_, ?_⟩, rfl⟩
      · intro id hid
        rw [JsObject.get_set]
        split
        · exact ⟨_, rfl⟩
        · exact h.1 id hid
      · intro k c hk
        rw [JsObject.get_set] at hk
        split at hk
        · next e =>
          cases hk
          rw [← e]
          exact h.2 convId conv hget
        · exact h.2 k c hk

theorem reply_of_current (app : ChatApp) (message : String)
    (chat : FetchResult (Option String)) (timestamp id : String)
    (h : StoreInv app) (hcur : app.currentConversationId = some id) :
    ∃ app1,
      (match sendMessageToAPI app chat timestamp with
        | Except.ok app4 => some app4
        | Except.error _ => simulateAIResponse app message timestamp) = some app1 ∧
      StoreInv app1 ∧ app1.currentConversationId = some id ∧
      ∃ c, JsObject.get app1.conversations id = some c ∧ c.messages.length > 0 := by
  have hsim := pushMessage_of_current app
    { content := "Simulé : je n'ai pas pu contacter le serveur pour \x22" ++ message ++ "\x22"
      sender := "ai", timestamp := timestamp } id h hcur
  cases chat with
  | rejected => simpa [sendMessageToAPI, simulateAIResponse] using hsim
  | response ok body =>
    cases ok with
    | false => simpa [sendMessageToAPI, simulateAIResponse] using hsim
    | true =>
      cases body with
      | none => simpa [sendMessageToAPI, simulateAIResponse] using hsim
      | some reply =>
        obtain ⟨app1, hp, hrest⟩ := pushMessage_of_current app
          { content := reply, sender := "ai", timestamp := timestamp } id h hcur
        exact ⟨app1, by simp [sendMessageToAPI, hp], hrest⟩

theorem snapshotInv_saveConversations (app : ChatApp) (rejects : Conversation → Bool)
    (storage : Option Snapshot) (id : String) (h : StoreInv app)
    (hs : SnapshotInv storage) (hcur : app.currentConversationId = some id)
    (hmsg : ∃ c, JsObject.get app.conversations id = some c ∧ c.messages.length > 0) :
    SnapshotInv (saveConversations app rejects storage) := by
  unfold saveConversations
  split
  · exact hs
  · intro snap hsnap id' hid'
    cases hsnap
    simp only [hcur, Option.some.injEq] at hid'
    subst hid'
    obtain ⟨c, hc, hm⟩ := hmsg
    refine ⟨c, ?_, h.2 id c hc⟩
    unfold conversationsData
    rw [List.mem_filter, JsObject.mem_values]
    exact ⟨⟨id, JsObject.mem_of_get _ _ _ hc⟩, by simpa using hm⟩

/-- One run of `sendMessage` from a state that satisfies the invariant raises no exception and
ends in a state that satisfies it; and if the save that it started wrote its snapshot at once,
from the state in which the method returns, the snapshot would satisfy the invariant of the local
entry. -/
theorem sendMessage_inv (app : ChatApp) (input : String) (env : SendEnv) (h : StoreInv app) :
    ∃ result, sendMessage app input env = some result ∧ StoreInv result.app ∧
      ∀ data, result.pendingSave = some data →
        SnapshotInv (some (saveConversationsCatch data result.app)) := by
  by_cases hblank : jsTrim input = ""
  · refine ⟨SendResult.mk app [] none, by simp [sendMessage, hblank], h, ?_⟩
    intro data hdata
    cases hdata
  · -- the conversation that receives the message
    have hstart : ∃ app1 id, StoreInv app1 ∧ app1.currentConversationId = some id ∧
        (if truthy app.currentConversationId then app
          else startNewConversation app env.now env.rand env.nowIso) = app1 := by
      by_cases ht : truthy app.currentConversationId = true
      · have hc : ∃ id, app.currentConversationId = some id := by
          cases hc : app.currentConversationId with
          | none =>
            rw [hc] at ht
            simp [truthy] at ht
          | some id => exact ⟨id, rfl⟩
        obtain ⟨id, hc⟩ := hc
        exact ⟨app, id, h, hc, if_pos ht⟩
      · exact ⟨_, _, storeInv_startNewConversation app env.now env.rand env.nowIso h, rfl,
          if_neg ht⟩
    obtain ⟨app1, id, h1, hcur1, happ1⟩ := hstart
    -- the title request
    have htitle : ∃ app2, StoreInv app2 ∧ app2.currentConversationId = some id ∧
        (if app1.isFirstMessage then
          (updateConversationTitle { app1 with isFirstMessage := false } id
              (firstMessageTitle (jsTrim input)) env.titlePutRejects,
            [Request.putTitle id (firstMessageTitle (jsTrim input))])
        else (Except.ok app1, [])).1 = Except.ok app2 := by
      by_cases hf : app1.isFirstMessage = true
      · obtain ⟨app2, hu, h2, hc2⟩ := updateConversationTitle_inv
          { app1 with isFirstMessage := false } id (firstMessageTitle (jsTrim input))
          env.titlePutRejects ⟨h1.1, h1.2⟩
        exact ⟨app2, h2, hc2.trans hcur1, by simp [hf, hu]⟩
      · exact ⟨app1, h1, hcur1, by simp [hf]⟩
    obtain ⟨app2, h2, hcur2, happ2⟩ := htitle
    obtain ⟨app3, hp3, h3, hcur3, _⟩ := pushMessage_of_current app2
      { content := jsTrim input, sender := "user", timestamp := env.userTimestamp } id h2 hcur2
    obtain ⟨app4, hp4, h4, hcur4, hmsg4⟩ := reply_of_current app3 (jsTrim input) env.chat
      env.replyTimestamp id h3 hcur3
    refine ⟨SendResult.mk app4
        ((if app1.isFirstMessage then
            (updateConversationTitle { app1 with isFirstMessage := false } id
                (firstMessageTitle (jsTrim input)) env.titlePutRejects,
              [Request.putTitle id (firstMessageTitle (jsTrim input))])
          else (Except.ok app1, [])).2 ++
          [Request.postChat (jsTrim input) app3.currentConversationId] ++
          firstPutRequest (conversationsData app4))
        (some (conversationsData app4)), ?_, h4, ?_⟩
    · have hkey : propertyKey app1.currentConversationId = id := by
        rw [hcur1]
        rfl
      unfold sendMessage
      simp only [hblank, if_false, happ1, hkey, happ2, hp3, hp4]
    · intro data hdata
      simp only [Option.some.injEq] at hdata
      subst hdata
      have hsound := snapshotInv_saveConversations app4 (fun _ => true) none id h4
        (by intro snap hsnap; cases hsnap) hcur4 hmsg4
      intro snap hsnap id' hid'
      cases hsnap
      obtain ⟨c, hc, hm⟩ := hmsg4
      simp only [saveConversationsCatch, hcur4, Option.some.injEq] at hid'
      subst hid'
      refine ⟨c, ?_, h4.2 id c hc⟩
      show c ∈ conversationsData app4
      unfold conversationsData
      rw [List.mem_filter, JsObject.mem_values]
      exact ⟨⟨id, JsObject.mem_of_get _ _ _ hc⟩, by simpa using hm⟩

theorem sampleSent_eq :
    sendMessage ChatApp.initial " Bonjour " sampleOffline = some sampleSent := by
  rfl

/-- C15: the invariant fails when the user opens a new conversation while the save started by
`sendMessage` still waits for the answer to its `PUT`.  The first message is sent, its save holds
the one conversation; `startNewConversation` makes a new, empty conversation current; the `PUT`
is rejected and the `catch` block writes the old conversation with the new current id; after a
reload under a transport failure the current id is not `null` and is no key of the store, and
`sendMessage` raises the `TypeError` of the push into a missing record. -/
theorem pending_save_breaks_current_id :
    sendMessage ChatApp.initial " Bonjour " sampleOffline = some sampleSent ∧
      sampleNewChat.currentConversationId = some "conv_1704153603000_q7w1e5r3t" ∧
      sampleLateEntry =
        some { conversations := [sampleSentConversation],
               currentId := some "conv_1704153603000_q7w1e5r3t" } ∧
      sampleReloaded.currentConversationId = some "conv_1704153603000_q7w1e5r3t" ∧
      JsObject.get sampleReloaded.conversations "conv_1704153603000_q7w1e5r3t" = none ∧
      JsObject.keys sampleReloaded.conversations = ["conv_1704153600000_k3x9q2m1z"] ∧
      (sendMessage sampleReloaded "Salut" sampleOffline).isNone = true := by
  decide

/-! ## Generated titles -/

theorem append_dots_ne_empty (s : String) : s ++ "..." ≠ "" := by
  intro h
  have := congrArg String.length h
  simp only [String.length_append] at this
  have h3 : "...".length = 3 := by decide
  have h0 : "".length = 0 := by decide
  omega

/-- The title that `generateTitle` returns is empty exactly when the record has no title that is
not blank and its first message is not empty but made of blanks only. -/
theorem generateTitle_eq_empty_iff (conv : HistoryConversation) :
    generateTitle conv = "" ↔
      ¬ (truthy conv.title = true ∧ jsTrim (conv.title.getD "") ≠ "") ∧
        truthy conv.first_message = true ∧ jsTrim (conv.first_message.getD "") = "" := by
  unfold generateTitle
  by_cases ht : truthy conv.title = true ∧ jsTrim (conv.title.getD "") ≠ ""
  · have hne : conv.title.getD "" ≠ "" := by
      cases hc : conv.title with
      | none => simp [hc, truthy] at ht
      | some v =>
        have := ht.1
        simp only [hc, truthy, decide_eq_true_eq] at this
        simpa using this
    simp [ht.1, ht.2, hne]
  · have hcond : (truthy conv.title && decide (jsTrim (conv.title.getD "") ≠ "")) = false := by
      cases h₁ : truthy conv.title with
      | false => rfl
      | true =>
        have h₂ : ¬ jsTrim (conv.title.getD "") ≠ "" := fun h₂ => ht ⟨h₁, h₂⟩
        simp [h₂]
    rw [hcond]
    by_cases hf : truthy conv.first_message = true
    · simp only [Bool.false_eq_true, if_false, hf, if_true]
      by_cases hlen : jsLength (jsTrim (conv.first_message.getD "")) > 40
      · have hne : jsTrim (conv.first_message.getD "") ≠ "" := by
          intro he
          rw [he] at hlen
          simp [jsLength] at hlen
        simp [hlen, append_dots_ne_empty, ht, hne]
      · simp [hlen, ht]
    · simp [hf]

end Yolsda
